import Mathlib

/-!
Verification development for the httpdsl repository (package `core`).

The Go sources are shallowly embedded below:
  * `src/core/http_engine.go`        — `HTTPEngine` (`Request`, `Extract`, `Compare`, …)
  * `src/unnamed/part_010`           — `HTTPDSLv3` grammar actions, `expandVariables`,
                                        `toBool`, `toNumber`, `unquoteString`,
                                        `EvaluateCondition` / `EvaluateSimpleCondition` /
                                        `CompareValues`
  * `src/unnamed/part_009`           — `ParseWithBlockSupport` (the block preprocessor)
  * `src/core/loop_processor.go`     — `ProcessLoopBody`, `ExtractIfBlock`,
                                        `ExtractLoopBlock`, `ProcessIfBlockWithControl`

Modelling conventions:
  * Go strings are `List Char` (`Str`); all the `strings.*` helpers used by the code
    are re-implemented structurally below with Go's semantics.
  * Go `float64` is modelled by the exact fraction type `Q`; every numeric literal the
    claims exercise is a small decimal, where `float64` arithmetic and comparison agree
    with exact arithmetic (rounding of long decimals is out of scope and unexercised).
  * Go maps are modelled by insertion-ordered association lists.  Go's map iteration
    order is unspecified; where a claim depends on it (`expandVariables`) the functions
    take the order explicitly as a list.
  * Network and regex/JSON library calls are oracle parameters (`Oracles`), so theorems
    quantify over their behaviour instead of stubbing it.
  * The mutually recursive block processor is one structurally recursive function `run`
    over a fuel counter, so that concrete executions reduce inside the kernel.
-/

namespace HttpDsl

/-- Go strings, as lists of characters. -/
abbrev Str := List Char

/-- Whitespace test matching `unicode.IsSpace` on the ASCII range used by scripts. -/
def isWS (c : Char) : Bool :=
  c == ' ' || c == '\t' || c == '\n' || c == '\r' || c == '\x0b' || c == '\x0c'

/-- Drop leading whitespace. -/
def trimLeftWS : Str → Str
  | [] => []
  | c :: t => if isWS c then trimLeftWS t else c :: t

/-- Drop trailing whitespace. -/
def trimRightWS (s : Str) : Str := (trimLeftWS s.reverse).reverse

/-- Model of Go `strings.TrimSpace`. -/
def trimSpace (s : Str) : Str := trimRightWS (trimLeftWS s)

/-- Model of Go `strings.HasPrefix s pat`. -/
def hasPre : Str → Str → Bool
  | _, [] => true
  | [], _ :: _ => false
  | c :: ct, p :: pt => c == p && hasPre ct pt

/-- Model of Go `strings.HasSuffix s pat`. -/
def hasSuf (s pat : Str) : Bool := hasPre s.reverse pat.reverse

/-- Model of Go `strings.TrimPrefix`. -/
def dropPre (s pat : Str) : Str := if hasPre s pat then s.drop pat.length else s

/-- Model of Go `strings.TrimSuffix`. -/
def dropSuf (s pat : Str) : Str :=
  if hasSuf s pat then s.take (s.length - pat.length) else s

/-- Model of Go `strings.Contains`. -/
def containsSub (s pat : Str) : Bool :=
  match s with
  | [] => hasPre [] pat
  | _ :: t => hasPre s pat || containsSub t pat

/-- Drop characters of `cutset` from the front. -/
def trimCutLeft : Str → Str → Str
  | [], _ => []
  | c :: t, cs => if cs.contains c then trimCutLeft t cs else c :: t

/-- Model of Go `strings.Trim` (both ends, any character of the cutset). -/
def trimCut (s cutset : Str) : Str :=
  (trimCutLeft (trimCutLeft s cutset).reverse cutset).reverse

/-- Split on a single character; mirrors Go `strings.Split` with a one-char separator. -/
def splitOnCh (sep : Char) : Str → List Str
  | [] => [[]]
  | c :: t =>
    if c == sep then [] :: splitOnCh sep t
    else
      match splitOnCh sep t with
      | [] => [[c]]
      | h :: r => (c :: h) :: r

/-- Index of the first occurrence of `pat` in `s`. -/
def findSub : Str → Str → Option Nat
  | s, pat =>
    match s with
    | [] => if pat.isEmpty then some 0 else none
    | _ :: t => if hasPre s pat then some 0 else (findSub t pat).map (· + 1)

/-- Model of Go `strings.SplitN s sep 2` for a non-empty separator. -/
def splitOn2 (s pat : Str) : List Str :=
  match findSub s pat with
  | none => [s]
  | some i => [s.take i, s.drop (i + pat.length)]

/-- Fuel-driven worker for `splitOnSub`. -/
def splitAllGo (pat : Str) : Nat → Str → List Str
  | 0, s => [s]
  | f + 1, s =>
    match findSub s pat with
    | none => [s]
    | some i => s.take i :: splitAllGo pat f (s.drop (i + pat.length))

/-- Model of Go `strings.Split s sep` for a non-empty separator. -/
def splitOnSub (s pat : Str) : List Str := splitAllGo pat (s.length + 1) s

/-- Take the maximal run of non-whitespace characters. -/
def takeField : Str → Str × Str
  | [] => ([], [])
  | c :: t =>
    if isWS c then ([], c :: t)
    else
      let p := takeField t
      (c :: p.1, p.2)

/-- Fuel-driven worker for `fieldsOf`. -/
def fieldsGo : Nat → Str → List Str
  | 0, _ => []
  | f + 1, s =>
    match trimLeftWS s with
    | [] => []
    | s' =>
      let p := takeField s'
      p.1 :: fieldsGo f p.2

/-- Model of Go `strings.Fields` (split on whitespace runs, no empty fields). -/
def fieldsOf (s : Str) : List Str := fieldsGo (s.length + 1) s

/-- Model of Go `strings.Join`. -/
def joinSep (sep : Str) : List Str → Str
  | [] => []
  | [x] => x
  | x :: r => x ++ sep ++ joinSep sep r

/-- Fuel-driven worker for `replaceAll`: leftmost, non-overlapping replacement that
does not rescan replacement text, exactly as Go `strings.Replace` does. -/
def repGo (old new : Str) : Nat → Str → Str
  | 0, s => s
  | f + 1, s =>
    match s with
    | [] => []
    | c :: t =>
      if hasPre s old then new ++ repGo old new f (s.drop old.length)
      else c :: repGo old new f t

/-- Model of Go `strings.ReplaceAll s old new` for a non-empty pattern (the code only
ever calls it with patterns of the form `"$" + name`, which are never empty). -/
def replaceAll (s old new : Str) : Str :=
  if old.isEmpty then s else repGo old new s.length s

/-- Decimal digits of a natural number. -/
def natToStrGo : Nat → Nat → Str
  | 0, _ => []
  | f + 1, n =>
    if n < 10 then [Char.ofNat (48 + n)]
    else natToStrGo f (n / 10) ++ [Char.ofNat (48 + n % 10)]

/-- Render a natural number in decimal, as Go `fmt` does. -/
def natToStr (n : Nat) : Str := natToStrGo (n + 1) n

/-- Render an integer in decimal, as Go `fmt` does. -/
def intToStr (n : Int) : Str :=
  if n < 0 then '-' :: natToStr n.natAbs else natToStr n.natAbs

/-- Decimal digit test. -/
def isDigit (c : Char) : Bool := 48 ≤ c.toNat && c.toNat ≤ 57

/-- Take the maximal run of decimal digits. -/
def takeDigits : Str → Str × Str
  | [] => ([], [])
  | c :: t =>
    if isDigit c then
      let p := takeDigits t
      (c :: p.1, p.2)
    else ([], c :: t)

/-- Numeric value of a digit string. -/
def digitsToNat (s : Str) : Nat := s.foldl (fun a c => a * 10 + (c.toNat - 48)) 0

/-- Exact fractions standing in for Go `float64` (numerator, positive denominator).
Constructed only through the operations below; never reduced, so all kernel
computation is plain integer arithmetic. -/
structure Q where
  num : Int
  den : Nat
deriving DecidableEq, Repr

/-- Embed an integer. -/
def qOfInt (n : Int) : Q := ⟨n, 1⟩

/-- Value equality of fractions (cross multiplication). -/
def qEq (a b : Q) : Bool := a.num * (b.den : Int) == b.num * (a.den : Int)

/-- Strict order on fractions. -/
def qLt (a b : Q) : Bool := a.num * (b.den : Int) < b.num * (a.den : Int)

/-- Non-strict order on fractions. -/
def qLe (a b : Q) : Bool := a.num * (b.den : Int) ≤ b.num * (a.den : Int)

/-- Addition. -/
def qAdd (a b : Q) : Q := ⟨a.num * (b.den : Int) + b.num * (a.den : Int), a.den * b.den⟩

/-- Subtraction. -/
def qSub (a b : Q) : Q := ⟨a.num * (b.den : Int) - b.num * (a.den : Int), a.den * b.den⟩

/-- Multiplication. -/
def qMul (a b : Q) : Q := ⟨a.num * b.num, a.den * b.den⟩

/-- Division (caller checks for a zero divisor, as the Go action does). -/
def qDiv (a b : Q) : Q :=
  if b.num < 0 then ⟨-(a.num * (b.den : Int)), a.den * b.num.natAbs⟩
  else ⟨a.num * (b.den : Int), a.den * b.num.natAbs⟩

/-- Zero test. -/
def qIsZero (a : Q) : Bool := a.num == 0

/-- Read an optional sign; returns (isNegative, rest). -/
def readSign : Str → Bool × Str
  | '-' :: t => (true, t)
  | '+' :: t => (false, t)
  | s => (false, s)

/-- Assemble a fraction from sign, integer digits, fraction digits and a base-10
exponent. -/
def qOfParts (neg : Bool) (ip fp : Str) (e : Int) : Q :=
  let m : Nat := digitsToNat (ip ++ fp)
  let baseNum : Int := if neg then -(m : Int) else (m : Int)
  let baseDen : Nat := 10 ^ fp.length
  if 0 ≤ e then ⟨baseNum * ((10 : Nat) ^ e.natAbs : Nat), baseDen⟩
  else ⟨baseNum, baseDen * 10 ^ e.natAbs⟩

/-- Model of Go `strconv.ParseFloat` on the decimal fragment the scripts use:
`[sign] (digits [. digits] | . digits) [e|E [sign] digits]`, consuming the whole
string.  (`Inf`, `NaN`, hex floats and `_` separators are never produced by the
DSL and are not modelled; `float64` rounding is likewise out of scope.) -/
def parseFloatFull (s : Str) : Option Q :=
  let sg := readSign s
  let ipp := takeDigits sg.2
  let afterDot :=
    match ipp.2 with
    | '.' :: t =>
      let fpp := takeDigits t
      some (ipp.1, fpp.1, fpp.2)
    | _ => some (ipp.1, [], ipp.2)
  match afterDot with
  | none => none
  | some (ip, fp, rest) =>
    if ip.isEmpty && fp.isEmpty then none
    else
      match rest with
      | [] => some (qOfParts sg.1 ip fp 0)
      | c :: r =>
        if c == 'e' || c == 'E' then
          let esg := readSign r
          let edd := takeDigits esg.2
          if edd.1.isEmpty || !edd.2.isEmpty then none
          else
            let ev : Int :=
              if esg.1 then -((digitsToNat edd.1 : Nat) : Int) else ((digitsToNat edd.1 : Nat) : Int)
            some (qOfParts sg.1 ip fp ev)
        else none

/-- Model of the token accumulated by Go `fmt`'s float scanner (`ss.floatToken`):
optional sign, digits, optional point and digits, optional exponent part.  The
token is validated by `parseFloatFull` afterwards, as `fmt` validates it with
`strconv.ParseFloat`. -/
def floatToken (s : Str) : Str :=
  let sg : Str × Str :=
    match s with
    | c :: t => if c == '+' || c == '-' then ([c], t) else ([], s)
    | [] => ([], [])
  let d1 := takeDigits sg.2
  let dot : Str × Str :=
    match d1.2 with
    | '.' :: t => (['.'], t)
    | _ => ([], d1.2)
  let d2 := if dot.1.isEmpty then (([] : Str), dot.2) else takeDigits dot.2
  match d2.2 with
  | c :: t =>
    if c == 'e' || c == 'E' then
      let sg2 : Str × Str :=
        match t with
        | c2 :: t2 => if c2 == '+' || c2 == '-' then ([c2], t2) else ([], t)
        | [] => ([], [])
      let d3 := takeDigits sg2.2
      sg.1 ++ d1.1 ++ dot.1 ++ d2.1 ++ [c] ++ sg2.1 ++ d3.1
    else sg.1 ++ d1.1 ++ dot.1 ++ d2.1
  | [] => sg.1 ++ d1.1 ++ dot.1 ++ d2.1

/-- Model of `fmt.Sscanf(s, "%f", &x)`: skip leading space, take the float token,
validate it.  `none` models a scan error (in which case the Go callers leave the
target variable at its zero value `0`). -/
def sscanfFloat (s : Str) : Option Q := parseFloatFull (floatToken (trimLeftWS s))

/-- Model of `fmt.Sscanf(s, "%d", &n)`: skip leading space, optional sign, maximal
digit run; `none` on a scan error. -/
def sscanfInt (s : Str) : Option Int :=
  let s' := trimLeftWS s
  let sg := readSign s'
  let d := takeDigits sg.2
  if d.1.isEmpty then none
  else some (if sg.1 then -((digitsToNat d.1 : Nat) : Int) else ((digitsToNat d.1 : Nat) : Int))

/-- Pad a digit string with leading zeros to width `k`. -/
def padLeftZeros (k : Nat) (s : Str) : Str := List.replicate (k - s.length) '0' ++ s

/-- Drop trailing zeros (Go prints floats in shortest form). -/
def trimRightZeros (s : Str) : Str := (s.reverse.dropWhile (· == '0')).reverse

/-- Render a `Q` the way Go `fmt`'s `%v` renders the corresponding `float64`:
integers without a point, finite decimals in shortest form.  (Values without a
finite decimal expansion never arise in the embedded runs; they get a marker
rendering.) -/
def gofmtQ (q : Q) : Str :=
  if q.den == 1 then intToStr q.num
  else
    match (List.range 21).find? (fun k => decide (k ≠ 0) && (10 ^ k) % q.den == 0) with
    | some k =>
      let scale := 10 ^ k / q.den
      let m := q.num.natAbs * scale
      let ip := m / 10 ^ k
      let fr := trimRightZeros (padLeftZeros k (natToStr (m % 10 ^ k)))
      let sign : Str := if q.num < 0 then ['-'] else []
      if fr.isEmpty then sign ++ natToStr ip
      else sign ++ natToStr ip ++ '.' :: fr
    | none => intToStr q.num ++ '/' :: natToStr q.den

/-! ### Values and interpreter state -/

/-- Runtime values of the DSL, mirroring the Go `interface{}` payloads the
implementation actually stores: `nil`, `bool`, `int`, `float64`, `string`,
`[]interface{}` and `map[string]interface{}`. -/
inductive Value where
  | vnull
  | vbool (b : Bool)
  | vint (n : Int)
  | vnum (q : Q)
  | vstr (s : Str)
  | varr (xs : List Value)
  | vmap (entries : List (Str × Value))

/-- Fuel-driven worker for `gofmt` (fuel bounds nesting depth). -/
def gofmtGo : Nat → Value → Str
  | 0, _ => []
  | _ + 1, .vnull => "<nil>".data
  | _ + 1, .vbool true => "true".data
  | _ + 1, .vbool false => "false".data
  | _ + 1, .vint n => intToStr n
  | _ + 1, .vnum q => gofmtQ q
  | _ + 1, .vstr s => s
  | f + 1, .varr xs => '[' :: (joinSep " ".data (xs.map (gofmtGo f)) ++ "]".data)
  | f + 1, .vmap es =>
    "map[".data ++ (joinSep " ".data (es.map (fun p => p.1 ++ ':' :: gofmtGo f p.2)) ++ "]".data)

/-- Model of Go `fmt.Sprintf("%v", value)` on the payloads above.  The fuel only
bounds container nesting depth; scripts build containers of depth at most two,
and no claim renders a container at all. -/
def gofmt (v : Value) : Str := gofmtGo 1000 v

/-- The Go result filter `res != nil && res != ""` applied all over the block
processor. -/
def keepResult (v : Value) : Bool :=
  match v with
  | .vnull => false
  | .vstr s => !s.isEmpty
  | _ => true

/-- The snapshot the HTTP engine keeps of the last response
(`http_engine.go`: `lastResponse`, `lastResponseBody`, `lastStatusCode`,
`lastResponseTime`, plus `baseURL`). -/
structure EngineState where
  baseURL : Str := []
  hasResponse : Bool := false
  lastBody : Str := []
  lastStatus : Int := 0
  lastTimeMs : Q := qOfInt 0
  lastHeaders : List (Str × Str) := []

/-- A wire response as delivered by the network layer. -/
structure HttpResp where
  status : Int
  body : Str
  headers : List (Str × Str)
  timeMs : Q

/-- Request options assembled by the grammar's option actions
(auth and timeout reach the wire but are irrelevant to every claim). -/
structure ReqOptions where
  headers : List (Str × Str) := []
  body : Option Str := none
  json : Option Str := none

/-- Oracles for the library calls the engine makes: the network round-trip
(`http.Client.Do`, `.error e` being an I/O error with message `e`) and the three
body extractors that are built on `encoding/json` / `regexp`
(`extractJSONPath`, `extractXPath`, `extractRegex`; `none` is Go `nil`).
Theorems quantify over these, so no library behaviour is stubbed. -/
structure Oracles where
  doReq : Str → Str → ReqOptions → Except Str HttpResp
  jsonpathO : Str → Str → Option Value
  xpathO : Str → Str → Option Value
  regexO : Str → Str → Option Value

/-- Model of `http.Header.Get` on the stored header list (header names are stored
already canonicalized, as `net/http` canonicalizes them). -/
def headerGet (hs : List (Str × Str)) (k : Str) : Str :=
  match hs.find? (fun p => p.1 == k) with
  | some p => p.2
  | none => []

/-- URL composition at the top of `HTTPEngine.Request`: prepend the base URL to
relative paths. -/
def requestTarget (es : EngineState) (url : Str) : Str :=
  if !es.baseURL.isEmpty && !hasPre url "http".data then es.baseURL ++ url else url

/-- Model of `HTTPEngine.Request` (`http_engine.go` lines 141-296).  On an I/O
error the Go method records the elapsed time, then returns
`nil, fmt.Errorf("request failed: %w", err)` — the snapshot keeps its previous
status/body/headers.  On success it overwrites the snapshot and returns the
response map. -/
def engineRequest (o : Oracles) (es : EngineState) (method url : Str) (opts : ReqOptions) :
    EngineState × Except Str Value :=
  let target := requestTarget es url
  match o.doReq method target opts with
  | .error e => ({ es with lastTimeMs := qOfInt 0 }, .error ("request failed: ".data ++ e))
  | .ok r =>
    ({ es with hasResponse := true, lastBody := r.body, lastStatus := r.status,
               lastTimeMs := r.timeMs, lastHeaders := r.headers },
     .ok (.vmap [("status".data, .vint r.status), ("body".data, .vstr r.body),
                 ("headers".data, .vmap (r.headers.map (fun p => (p.1, Value.vstr p.2)))),
                 ("time".data, .vnum r.timeMs), ("size".data, .vint (r.body.length : Int))]))

/-- Model of `HTTPEngine.Extract` (`http_engine.go` lines 299-321): dispatch on the
extraction kind; `none` is the Go `nil` result (unknown kind, or `header` with no
response stored). -/
def engineExtract (o : Oracles) (es : EngineState) (ty pat : Str) : Option Value :=
  if ty == "status".data then some (.vint es.lastStatus)
  else if ty == "header".data then
    if es.hasResponse then some (.vstr (headerGet es.lastHeaders pat)) else none
  else if ty == "jsonpath".data then o.jsonpathO pat es.lastBody
  else if ty == "xpath".data then o.xpathO pat es.lastBody
  else if ty == "regex".data then o.regexO pat es.lastBody
  else none

/-! ### Comparison and truthiness -/

/-- The numeric comparison switch shared by `HTTPEngine.Compare` and
`CompareValues`; `none` models falling through a Go `switch` with no matching
case. -/
def numSwitch (a b : Q) (op : Str) : Option Bool :=
  if op == "==".data then some (qEq a b)
  else if op == "!=".data then some (!qEq a b)
  else if op == ">".data then some (qLt b a)
  else if op == ">=".data then some (qLe b a)
  else if op == "<".data then some (qLt a b)
  else if op == "<=".data then some (qLe a b)
  else none

/-- Bytewise lexicographic order of Go strings (codepoint order coincides with
UTF-8 byte order). -/
def strLt : Str → Str → Bool
  | [], [] => false
  | [], _ :: _ => true
  | _ :: _, [] => false
  | x :: xs, y :: ys => if x == y then strLt xs ys else decide (x < y)

/-- The string comparison switch shared by `HTTPEngine.Compare` and
`CompareValues`; `none` models falling through with no matching case. -/
def strSwitch (x y : Str) (op : Str) : Option Bool :=
  if op == "==".data then some (x == y)
  else if op == "!=".data then some (x != y)
  else if op == ">".data then some (strLt y x)
  else if op == ">=".data then some (strLt y x || x == y)
  else if op == "<".data then some (strLt x y)
  else if op == "<=".data then some (strLt x y || x == y)
  else none

/-- Model of `HTTPEngine.Compare` (`http_engine.go` lines 527-571): stringify both
sides with `%v`, try `strconv.ParseFloat` on both; numeric comparison when both
parse, otherwise (or on an operator the numeric switch does not handle)
string comparison; `false` when nothing matches. -/
def engineCompare (left : Value) (op : Str) (right : Value) : Bool :=
  let leftStr := gofmt left
  let rightStr := gofmt right
  let strFallback := (strSwitch leftStr rightStr op).getD false
  match parseFloatFull leftStr, parseFloatFull rightStr with
  | some a, some b =>
    match numSwitch a b op with
    | some r => r
    | none => strFallback
  | _, _ => strFallback

/-- The numeric-coercion step of `CompareValues` (`part_010`): `int` and `float64`
count as numbers directly, a string counts when `fmt.Sscanf(v, "%f", …)`
succeeds (which reads a float from the leading prefix), everything else does
not. -/
def numFlag (v : Value) : Option Q :=
  match v with
  | .vint n => some (qOfInt n)
  | .vnum q => some q
  | .vstr s => sscanfFloat s
  | _ => none

/-- Model of `HTTPDSLv3.CompareValues` (`part_010` lines 1529-1600). -/
def compareValues (left : Value) (op : Str) (right : Value) : Bool :=
  let strFallback := (strSwitch (gofmt left) (gofmt right) op).getD false
  match numFlag left, numFlag right with
  | some a, some b =>
    match numSwitch a b op with
    | some r => r
    | none => strFallback
  | _, _ => strFallback

/-- Model of `HTTPDSLv3.toBool` (`part_010` lines 1137-1148).  The Go type switch
reads `case int, int64, float64: return val != 0`; with several types in one
case the bound variable keeps the interface type, and `val != 0` compares
against the interface value `int(0)` — so only an `int` zero is ever equal to
it, while `float64(0)` (the DSL's standard number type) and `int64(0)` compare
unequal and yield `true`. -/
def toBool (v : Value) : Bool :=
  match v with
  | .vbool b => b
  | .vstr s => !(s == ([] : Str)) && !(s == "false".data) && !(s == "0".data)
  | .vint n => n != 0
  | .vnum _ => true
  | .vnull => false
  | _ => true

/-- Model of `HTTPDSLv3.toNumber` (`part_010` lines 1153-1167). -/
def toNumber (v : Value) : Q :=
  match v with
  | .vnum q => q
  | .vint n => qOfInt n
  | .vstr s => (parseFloatFull s).getD (qOfInt 0)
  | _ => qOfInt 0

/-! ### Variable store and expansion -/

/-- The interpreter state: the variable map (`hd.variables`, as an
insertion-ordered association list standing for one legal iteration order of
the Go map), the execution-context flags (`hd.context["break"]` and
`hd.context["continue"]`, the only keys the code uses), and the engine. -/
structure DslState where
  vars : List (Str × Value) := []
  ctxBreak : Bool := false
  ctxContinue : Bool := false
  engine : EngineState := {}

/-- Variable lookup (`hd.variables[name]`). -/
def lookupVar (st : DslState) (n : Str) : Option Value :=
  (st.vars.find? (fun p => p.1 == n)).map (·.2)

/-- Association-list update: overwrite in place, append when new. -/
def setVarList (vars : List (Str × Value)) (n : Str) (v : Value) : List (Str × Value) :=
  match vars with
  | [] => [(n, v)]
  | p :: t => if p.1 == n then (n, v) :: t else p :: setVarList t n v

/-- Variable write (`hd.variables[name] = value` / `SetVariable`). -/
def setVar (st : DslState) (n : Str) (v : Value) : DslState :=
  { st with vars := setVarList st.vars n v }

/-- Model of `HTTPDSLv3.expandVariables` (`part_010` lines 1123-1132) over an
explicit iteration order: sequential `strings.ReplaceAll` of `"$" + name` by the
`%v` rendering of the value, one pass per stored variable.  Go iterates the
`variables` map in unspecified order; the list argument fixes one such order. -/
def expandVarsList (vars : List (Str × Value)) (s : Str) : Str :=
  vars.foldl (fun acc p => replaceAll acc ('$' :: p.1) (gofmt p.2)) s

/-- Expansion with the interpreter's current store (in insertion order). -/
def expandVariables (st : DslState) (s : Str) : Str := expandVarsList st.vars s

/-- Model of `HTTPDSLv3.unquoteString` (`part_010` lines 1101-1112): strip one pair of
double quotes and rewrite the escape sequences in the source's order. -/
def unquoteString (s : Str) : Str :=
  if 2 ≤ s.length && s.headD ' ' == '"' && s.getLastD ' ' == '"' then
    let core := (s.drop 1).take (s.length - 2)
    let r1 := replaceAll core "\\\"".data "\"".data
    let r2 := replaceAll r1 "\\\\".data "\\".data
    let r3 := replaceAll r2 "\\n".data "\n".data
    let r4 := replaceAll r3 "\\t".data "\t".data
    replaceAll r4 "\\r".data "\r".data
  else s

/-! ### The textual condition evaluators of the block path -/

/-- Model of `HTTPDSLv3.EvaluateSimpleCondition` (`part_010`): a single token is a
truthiness test of a variable; three tokens are `left OP right` where a side is
a variable (undefined variables make the whole condition false) or a literal
string; anything else is false. -/
def evalSimpleCondition (st : DslState) (condStr : Str) : Bool :=
  match fieldsOf condStr with
  | [p] =>
    match lookupVar st (dropPre p "$".data) with
    | some (.vbool b) => b
    | some (.vint n) => n != 0
    | some (.vnum q) => !qIsZero q
    | some (.vstr s) => !(s == ([] : Str)) && !(s == "0".data) && !(s == "false".data)
    | some .vnull => false
    | some _ => true
    | none => false
  | [l, op, r] =>
    let leftVal : Option Value :=
      if hasPre l "$".data then lookupVar st (dropPre l "$".data) else some (.vstr l)
    let rightVal : Option Value :=
      if hasPre r "$".data then lookupVar st (dropPre r "$".data) else some (.vstr r)
    match leftVal, rightVal with
    | some lv, some rv => compareValues lv op rv
    | _, _ => false
  | _ => false

/-- The `" AND "` layer of `HTTPDSLv3.EvaluateCondition`. -/
def evalCondAnd (st : DslState) (s : Str) : Bool :=
  if containsSub s " AND ".data then
    (splitOnSub s " AND ".data).all (fun p => evalSimpleCondition st (trimSpace p))
  else evalSimpleCondition st s

/-- Model of `HTTPDSLv3.EvaluateCondition` (`part_010`): split on `" OR "` first
(any disjunct suffices), then `" AND "` (all conjuncts required), then the simple
comparison.  The Go function recurses on the trimmed parts; since split parts
cannot contain the separator again, the two explicit layers are equivalent. -/
def evalCondition (st : DslState) (s : Str) : Bool :=
  if containsSub s " OR ".data then
    (splitOnSub s " OR ".data).any (fun p => evalCondAnd st (trimSpace p))
  else evalCondAnd st s

/-! ### Tokenizer and single-statement execution (`ParseWithContext`)

The grammar engine itself lives in the external `go-dsl` dependency; what is
embedded here is the token table and the rule/action tables `setupGrammar`
installs (`part_010`), restricted to the statement forms the claims and their
scripts exercise: `break`, `continue`, `set`/`var` with term/arithmetic
expressions, `print`, `extract`, and HTTP requests with `header`/`body`/`json`
options.  Unsupported forms (inline JSON, grouped statements, assertions,
single-line grammar conditionals, …) produce a parse error, exactly as the
claims' scripts never reach them. -/

/-- Tokens of the DSL (`part_010` token table). -/
inductive Tok where
  | kw (s : Str)
  | ident (s : Str)
  | tstr (s : Str)
  | tnum (s : Str)
  | tvar (s : Str)
  | turl (s : Str)
  | top (s : Str)
  | lbr | rbr | lpar | rpar
deriving DecidableEq

/-- The priority-90 keywords of `setupGrammar` (HTTP methods included). -/
def kwList : List Str :=
  ["GET", "POST", "PUT", "DELETE", "PATCH", "HEAD", "OPTIONS", "CONNECT", "TRACE",
   "header", "body", "json", "form", "auth", "basic", "bearer", "timeout", "ms", "s",
   "set", "var", "print", "length", "split", "at", "extract", "from", "as",
   "jsonpath", "xpath", "regex", "status", "response",
   "if", "then", "else", "endif", "contains", "equals", "matches", "exists", "empty",
   "greater", "less",
   "repeat", "times", "do", "endloop", "while", "foreach", "in", "break", "continue",
   "assert", "expect", "time",
   "wait", "sleep", "log", "debug", "clear", "cookies", "reset", "base", "url",
   "and", "or", "not"].map String.data

/-- HTTP method keywords. -/
def methodList : List Str :=
  ["GET", "POST", "PUT", "DELETE", "PATCH", "HEAD", "OPTIONS", "CONNECT",
   "TRACE"].map String.data

/-- Letter or underscore. -/
def isLetterUnd (c : Char) : Bool :=
  (97 ≤ c.toNat && c.toNat ≤ 122) || (65 ≤ c.toNat && c.toNat ≤ 90) || c == '_'

/-- Identifier continuation character. -/
def isAlnumUnd (c : Char) : Bool := isLetterUnd c || isDigit c

/-- Take the maximal identifier run. -/
def takeWord : Str → Str × Str
  | [] => ([], [])
  | c :: t =>
    if isAlnumUnd c then
      let p := takeWord t
      (c :: p.1, p.2)
    else ([], c :: t)

/-- Scan a string literal body after the opening quote, per the `STRING` pattern
`"(?:[^"\x5c]|\x5c.)*"`; returns the body and the rest, `none` when
unterminated. -/
def scanStrTok : Str → Option (Str × Str)
  | [] => none
  | '"' :: t => some ([], t)
  | '\\' :: c :: t => (scanStrTok t).map (fun p => ('\\' :: c :: p.1, p.2))
  | '\\' :: [] => none
  | c :: t => (scanStrTok t).map (fun p => (c :: p.1, p.2))

/-- Take characters up to whitespace (for the `URL` token). -/
def takeNonWS : Str → Str × Str
  | [] => ([], [])
  | c :: t =>
    if isWS c then ([], c :: t)
    else
      let p := takeNonWS t
      (c :: p.1, p.2)

/-- Fuel-driven tokenizer; `none` is a tokenization error.  Keywords outrank the
identifier pattern; `URL` is tried before `ID`, `NUMBER` before operators, per
the pattern table. -/
def tokenizeGo : Nat → Str → Option (List Tok)
  | 0, _ => none
  | f + 1, s =>
    match trimLeftWS s with
    | [] => some []
    | c :: t =>
      if c == '"' then
        match scanStrTok t with
        | some p => (tokenizeGo f p.2).map (fun r => Tok.tstr ('"' :: p.1 ++ ['"']) :: r)
        | none => none
      else if c == '$' then
        match t with
        | c2 :: _ =>
          if isLetterUnd c2 then
            let p := takeWord t
            (tokenizeGo f p.2).map (fun r => Tok.tvar p.1 :: r)
          else none
        | [] => none
      else if isDigit c then
        let d1 := takeDigits (c :: t)
        match d1.2 with
        | '.' :: r2 =>
          let d2 := takeDigits r2
          if d2.1.isEmpty then (tokenizeGo f d1.2).map (fun r => Tok.tnum d1.1 :: r)
          else (tokenizeGo f d2.2).map (fun r => Tok.tnum (d1.1 ++ '.' :: d2.1) :: r)
        | _ => (tokenizeGo f d1.2).map (fun r => Tok.tnum d1.1 :: r)
      else if hasPre (c :: t) "http://".data || hasPre (c :: t) "https://".data then
        let p := takeNonWS (c :: t)
        (tokenizeGo f p.2).map (fun r => Tok.turl p.1 :: r)
      else if isLetterUnd c then
        let p := takeWord (c :: t)
        (tokenizeGo f p.2).map (fun r =>
          (if kwList.contains p.1 then Tok.kw p.1 else Tok.ident p.1) :: r)
      else if c == '=' then
        match t with
        | '=' :: r => (tokenizeGo f r).map (fun l => Tok.top "==".data :: l)
        | _ => none
      else if c == '!' then
        match t with
        | '=' :: r => (tokenizeGo f r).map (fun l => Tok.top "!=".data :: l)
        | _ => none
      else if c == '>' then
        match t with
        | '=' :: r => (tokenizeGo f r).map (fun l => Tok.top ">=".data :: l)
        | _ => (tokenizeGo f t).map (fun l => Tok.top ">".data :: l)
      else if c == '<' then
        match t with
        | '=' :: r => (tokenizeGo f r).map (fun l => Tok.top "<=".data :: l)
        | _ => (tokenizeGo f t).map (fun l => Tok.top "<".data :: l)
      else if c == '+' || c == '-' || c == '*' || c == '/' then
        (tokenizeGo f t).map (fun l => Tok.top [c] :: l)
      else if c == '[' then (tokenizeGo f t).map (fun l => Tok.lbr :: l)
      else if c == ']' then (tokenizeGo f t).map (fun l => Tok.rbr :: l)
      else if c == '(' then (tokenizeGo f t).map (fun l => Tok.lpar :: l)
      else if c == ')' then (tokenizeGo f t).map (fun l => Tok.rpar :: l)
      else none

/-- Tokenize one line. -/
def tokenize (s : Str) : Option (List Tok) := tokenizeGo (s.length + 1) s

/-- The `arithmeticOp` action: coerce both sides with `toNumber`, fail on division
by zero. -/
def arithmeticOp (left : Value) (op : Str) (right : Value) : Except Str Value :=
  let l := toNumber left
  let r := toNumber right
  if op == "+".data then .ok (.vnum (qAdd l r))
  else if op == "-".data then .ok (.vnum (qSub l r))
  else if op == "*".data then .ok (.vnum (qMul l r))
  else if op == "/".data then
    if qIsZero r then .error "division by zero".data else .ok (.vnum (qDiv l r))
  else .error ("unknown operator: ".data ++ op)

/-- The term actions `valueNumber` / `valueString` / `valueVariable`. -/
def evalTerm (st : DslState) : Tok → Except Str Value
  | .tnum raw => .ok (.vnum ((parseFloatFull raw).getD (qOfInt 0)))
  | .tstr raw => .ok (.vstr (expandVariables st (unquoteString raw)))
  | .tvar n =>
    match lookupVar st n with
    | some v => .ok v
    | none => .error ("variable $".data ++ n ++ " not found".data)
  | _ => .error "no rule matched".data

/-- Left-associative `expression := expression ARITHMETIC term | term` chain. -/
def evalExprChain (st : DslState) (acc : Value) : List Tok → Except Str Value
  | [] => .ok acc
  | .top op :: t :: rest =>
    match evalTerm st t with
    | .error e => .error e
    | .ok rv =>
      match arithmeticOp acc op rv with
      | .error e => .error e
      | .ok v => evalExprChain st v rest
  | _ => .error "no rule matched".data

/-- Evaluate the expression tokens of a `set` statement. -/
def evalExprToks (st : DslState) : List Tok → Except Str Value
  | [] => .error "no rule matched".data
  | t :: rest =>
    match evalTerm st t with
    | .error e => .error e
    | .ok v => evalExprChain st v rest

/-- The `extractVariable` action (`part_010` lines 762-780): with no stored
response body, write the empty string and return a warning; otherwise run the
engine extraction, convert a `nil` result to the empty string, store, and report
success. -/
def extractAction (o : Oracles) (st : DslState) (ty pat varName : Str) :
    DslState × Except Str Value :=
  if st.engine.lastBody == ([] : Str) then
    (setVar st varName (.vstr []),
     .ok (.vstr ("Warning: No response available for extraction. Variable $".data ++
                 varName ++ " set to empty.".data)))
  else
    let value :=
      match engineExtract o st.engine ty pat with
      | none => Value.vstr []
      | some v => v
    (setVar st varName value,
     .ok (.vstr ("Extracted ".data ++ pat ++ " using ".data ++ ty ++
                 " and stored in $".data ++ varName)))

/-- The `extractVariableNoPattern` action (`part_010` lines 782-799). -/
def extractActionNP (o : Oracles) (st : DslState) (ty varName : Str) :
    DslState × Except Str Value :=
  if st.engine.lastBody == ([] : Str) then
    (setVar st varName (.vstr []),
     .ok (.vstr ("Warning: No response available for extraction. Variable $".data ++
                 varName ++ " set to empty.".data)))
  else
    let value :=
      match engineExtract o st.engine ty [] with
      | none => Value.vstr []
      | some v => v
    (setVar st varName value,
     .ok (.vstr ("Extracted ".data ++ ty ++ " and stored in $".data ++ varName)))

/-- Header-map update with Go map overwrite semantics. -/
def setAssoc (hs : List (Str × Str)) (k v : Str) : List (Str × Str) :=
  match hs with
  | [] => [(k, v)]
  | p :: t => if p.1 == k then (k, v) :: t else p :: setAssoc t k v

/-- Parse the grammar's `option_list` from tokens, applying the option actions
(`headerOption` expands the value but not the key; `bodyOption` and
`jsonStringOption` expand their payload; the last `body`/`json` wins as in the
Go map). -/
def parseOpts (st : DslState) : List Tok → ReqOptions → Except Str ReqOptions
  | [], acc => .ok acc
  | Tok.kw w :: rest, acc =>
    if w == "header".data then
      match rest with
      | Tok.tstr k :: Tok.tstr v :: r2 =>
        parseOpts st r2
          { acc with headers := setAssoc acc.headers (unquoteString k)
                       (expandVariables st (unquoteString v)) }
      | _ => .error "no rule matched".data
    else if w == "body".data then
      match rest with
      | Tok.tstr b :: r2 =>
        parseOpts st r2 { acc with body := some (expandVariables st (unquoteString b)) }
      | _ => .error "no rule matched".data
    else if w == "json".data then
      match rest with
      | Tok.tstr j :: r2 =>
        parseOpts st r2 { acc with json := some (expandVariables st (unquoteString j)) }
      | _ => .error "no rule matched".data
    else .error "no rule matched".data
  | _, _ => .error "no rule matched".data

/-- The `url_value` actions: a quoted string is unquoted and expanded
(`urlString`), a bare URL is expanded (`urlDirect`), a variable is looked up and
stringified (`urlVariable`, failing when undefined). -/
def evalUrlValue (st : DslState) : Tok → Except Str Str
  | .tstr raw => .ok (expandVariables st (unquoteString raw))
  | .turl u => .ok (expandVariables st u)
  | .tvar n =>
    match lookupVar st n with
    | some v => .ok (gofmt v)
    | none => .error ("variable $".data ++ n ++ " not found".data)
  | _ => .error "no rule matched".data

/-- Execute an HTTP request statement (`httpSimple` / `httpWithOptions`). -/
def execHttp (o : Oracles) (st : DslState) (method : Str) (urlTok : Tok)
    (optToks : List Tok) : DslState × Except Str Value :=
  match evalUrlValue st urlTok with
  | .error e => (st, .error e)
  | .ok url =>
    match parseOpts st optToks {} with
    | .error e => (st, .error e)
    | .ok opts =>
      let p := engineRequest o st.engine method url opts
      ({ st with engine := p.1 }, p.2)

/-- Execute one tokenized statement through the rule/action tables. -/
def execToks (o : Oracles) (st : DslState) : List Tok → DslState × Except Str Value
  | [Tok.kw w] =>
    if w == "break".data then ({ st with ctxBreak := true }, .ok (.vstr "break".data))
    else if w == "continue".data then
      ({ st with ctxContinue := true }, .ok (.vstr "continue".data))
    else (st, .error "no rule matched".data)
  | Tok.kw w :: Tok.tvar n :: exprToks =>
    if (w == "set".data || w == "var".data) && !exprToks.isEmpty then
      match evalExprToks st exprToks with
      | .error e => (st, .error e)
      | .ok v =>
        (setVar st n v, .ok (.vstr ("Variable $".data ++ n ++ " set to ".data ++ gofmt v)))
    else if w == "print".data && exprToks.isEmpty then
      match lookupVar st n with
      | some v => (st, .ok (.vstr ('$' :: n ++ " = ".data ++ gofmt v)))
      | none => (st, .ok (.vstr ("Variable $".data ++ n ++ " not found".data)))
    else if methodList.contains w then execHttp o st w (Tok.tvar n) exprToks
    else (st, .error "no rule matched".data)
  | [Tok.kw w, Tok.tstr raw] =>
    if w == "print".data then
      (st, .ok (.vstr (expandVariables st (unquoteString raw))))
    else if methodList.contains w then execHttp o st w (Tok.tstr raw) []
    else (st, .error "no rule matched".data)
  | [Tok.kw w, Tok.kw ty, Tok.tstr praw, Tok.kw a, Tok.tvar v] =>
    if w == "extract".data && a == "as".data &&
        (ty == "jsonpath".data || ty == "xpath".data || ty == "regex".data ||
         ty == "header".data || ty == "status".data) then
      extractAction o st ty (unquoteString praw) v
    else (st, .error "no rule matched".data)
  | [Tok.kw w, Tok.kw ty, Tok.kw a, Tok.tvar v] =>
    if w == "extract".data && a == "as".data &&
        (ty == "jsonpath".data || ty == "xpath".data || ty == "regex".data ||
         ty == "header".data || ty == "status".data) then
      extractActionNP o st ty v
    else (st, .error "no rule matched".data)
  | Tok.kw w :: urlTok :: optToks =>
    if methodList.contains w then execHttp o st w urlTok optToks
    else (st, .error "no rule matched".data)
  | _ => (st, .error "no rule matched".data)

/-- Model of `HTTPDSLv3.ParseWithContext` on one line: tokenize and execute,
leaving the execution context untouched on entry (ParseWithContext deliberately
does not clear it). -/
def parseWithContext (o : Oracles) (st : DslState) (line : Str) :
    DslState × Except Str Value :=
  match tokenize line with
  | none => (st, .error "tokenization error".data)
  | some toks => execToks o st toks

/-! ### The block preprocessor (`ParseWithBlockSupport`, `ProcessLoopBody`,
`ProcessIfBlockWithControl`)

The three mutually recursive Go functions, plus their internal loops, are one
structurally recursive function `run` over a fuel counter; the fuel only bounds
call depth (`fuelMsg` marks exhaustion and is how the model renders a
non-terminating Go execution), every other behaviour is translated line by
line from `part_009` and `loop_processor.go`. -/

/-- Helper of `part_009`: does the (trimmed) line start with an HTTP method and a
space? -/
def isHTTPMethodLine (line : Str) : Bool :=
  (["GET ", "POST ", "PUT ", "DELETE ", "PATCH ", "HEAD ", "OPTIONS ", "CONNECT ",
    "TRACE "].map String.data).any (fun m => hasPre line m)

/-- Look-ahead of the HTTP branch of `ParseWithBlockSupport`: collect following
lines that are indented four spaces and start with `header `, returning the
trimmed continuation lines, the remaining lines, and the number consumed. -/
def collectHeaderCont : List Str → List Str × List Str × Nat
  | [] => ([], [], 0)
  | l :: t =>
    if hasPre l "    ".data && hasPre (trimSpace l) "header ".data then
      let p := collectHeaderCont t
      (trimSpace l :: p.1, p.2.1, p.2.2 + 1)
    else ([], l :: t, 0)

/-- Result of scanning an `if` block in `ParseWithBlockSupport`. -/
structure IfCollect where
  thenB : List Str := []
  elseB : List Str := []
  rest : List Str := []
  used : Nat := 0

/-- The `if`-block collection loop of `ParseWithBlockSupport` (`part_009` lines
703-751): walk the lines after the `if … then` line, tracking nesting, keeping
original formatting, splitting at a level-1 `else`, dropping blanks and `#`
comments, stopping at the matching `endif` (which is consumed but not kept). -/
def collectIf : List Str → Nat → Bool → IfCollect
  | [], _, _ => {}
  | l :: t, nest, inElse =>
    let T := trimSpace l
    if T == "endif".data then
      if nest == 1 then { rest := t, used := 1 }
      else
        let p := collectIf t (nest - 1) inElse
        if inElse then { p with elseB := l :: p.elseB, used := p.used + 1 }
        else { p with thenB := l :: p.thenB, used := p.used + 1 }
    else if hasPre T "if ".data && hasSuf T " then".data then
      let p := collectIf t (nest + 1) inElse
      if inElse then { p with elseB := l :: p.elseB, used := p.used + 1 }
      else { p with thenB := l :: p.thenB, used := p.used + 1 }
    else if T == "else".data && nest == 1 then
      let p := collectIf t nest true
      { p with used := p.used + 1 }
    else if T == "else".data then
      let p := collectIf t nest inElse
      if inElse then { p with elseB := l :: p.elseB, used := p.used + 1 }
      else { p with thenB := l :: p.thenB, used := p.used + 1 }
    else if !T.isEmpty && !hasPre T "#".data then
      let p := collectIf t nest inElse
      if inElse then { p with elseB := l :: p.elseB, used := p.used + 1 }
      else { p with thenB := l :: p.thenB, used := p.used + 1 }
    else
      let p := collectIf t nest inElse
      { p with used := p.used + 1 }

/-- Result of scanning a loop block in `ParseWithBlockSupport`. -/
structure LoopCollect where
  body : List Str := []
  rest : List Str := []
  used : Nat := 0

/-- The loop-body collection loop of `ParseWithBlockSupport` (shared by the
`repeat`/`while`/`foreach` branches): keep trimmed non-blank non-`#` lines,
track nesting by `… do` / `endloop`, stop at the matching `endloop`.  Nested
`endloop` lines are *not* kept (`innerLine != "endloop"` in the filter), which
is what later breaks nested loops inside `ProcessLoopBody`. -/
def collectLoop : List Str → Nat → LoopCollect
  | [], _ => {}
  | l :: t, nest =>
    let T := trimSpace l
    if T == "endloop".data then
      if nest == 1 then { rest := t, used := 1 }
      else
        let p := collectLoop t (nest - 1)
        { p with used := p.used + 1 }
    else
      let nest' := if hasSuf T " do".data then nest + 1 else nest
      let p := collectLoop t nest'
      if !T.isEmpty && !hasPre T "#".data then
        { p with body := T :: p.body, used := p.used + 1 }
      else { p with used := p.used + 1 }

/-- Model of `ExtractIfBlock` (`loop_processor.go` lines 118-153): take lines up
to the balancing `endif` (kept in the block); `none` when it never balances. -/
def extractIfBlock : List Str → Int → Option (List Str × List Str)
  | [], _ => none
  | l :: t, nest =>
    let T := trimSpace l
    let nest' :=
      if hasPre T "if ".data && hasSuf T " then".data then nest + 1
      else if T == "endif".data then nest - 1
      else nest
    if nest' == 0 then some ([l], t)
    else (extractIfBlock t nest').map (fun p => (l :: p.1, p.2))

/-- Model of `ExtractLoopBlock` (`loop_processor.go` lines 156-191). -/
def extractLoopBlock : List Str → Int → Option (List Str × List Str)
  | [], _ => none
  | l :: t, nest =>
    let T := trimSpace l
    let nest' :=
      if hasSuf T " do".data then nest + 1
      else if T == "endloop".data then nest - 1
      else nest
    if nest' == 0 then some ([l], t)
    else (extractLoopBlock t nest').map (fun p => (l :: p.1, p.2))

/-- The then/else split of `ProcessIfBlockWithControl` (`loop_processor.go` lines
277-324): walk the block after its first line, appending *trimmed* lines,
stopping at the level-0 `endif`. -/
def splitThenElse : List Str → Nat → Bool → List Str × List Str
  | [], _, _ => ([], [])
  | l :: t, nest, inElse =>
    let T := trimSpace l
    if hasPre T "if ".data && hasSuf T " then".data then
      let p := splitThenElse t (nest + 1) inElse
      if inElse then (p.1, T :: p.2) else (T :: p.1, p.2)
    else if T == "endif".data then
      if nest == 0 then ([], [])
      else
        let p := splitThenElse t (nest - 1) inElse
        if inElse then (p.1, T :: p.2) else (T :: p.1, p.2)
    else if T == "else".data then
      if nest == 0 then splitThenElse t nest true
      else
        let p := splitThenElse t nest inElse
        if inElse then (p.1, T :: p.2) else (T :: p.1, p.2)
    else if !T.isEmpty && !hasPre T "#".data then
      let p := splitThenElse t nest inElse
      if inElse then (p.1, T :: p.2) else (T :: p.1, p.2)
    else splitThenElse t nest inElse

/-- The final break/continue line scan of `ProcessIfBlockWithControl` (lines
365-375): `some true` for a literal `break` line, `some false` for `continue`,
first hit wins. -/
def scanBC : List Str → Option Bool
  | [] => none
  | l :: t =>
    let T := trimSpace l
    if T == "break".data then some true
    else if T == "continue".data then some false
    else scanBC t

/-- The `strings.Fields`-based condition evaluator that `ParseWithBlockSupport`
inlines twice, verbatim, in its `while` driver (`part_009` lines 908-944) and in
its single-line `if/then/else` handler (lines 1129-1166): the left side must be
a *defined variable* (otherwise the condition is false), its value is coerced
with the `int`/`float64`/`string`-via-`Sscanf` switch, the right side is read
with `Sscanf "%f"` (zero on failure). -/
def varFieldsCond (st : DslState) (condStr : Str) : Bool :=
  match fieldsOf condStr with
  | [a, op, b] =>
    match lookupVar st (dropPre a "$".data) with
    | some v =>
      let numVal : Q :=
        match v with
        | .vint n => qOfInt n
        | .vnum q => q
        | .vstr s => (sscanfFloat s).getD (qOfInt 0)
        | _ => qOfInt 0
      let compareVal : Q := (sscanfFloat b).getD (qOfInt 0)
      if op == "<".data then qLt numVal compareVal
      else if op == ">".data then qLt compareVal numVal
      else if op == "<=".data then qLe numVal compareVal
      else if op == ">=".data then qLe compareVal numVal
      else if op == "==".data then qEq numVal compareVal
      else if op == "!=".data then !qEq numVal compareVal
      else false
    | none => false
  | _ => false

/-- The repeat-count resolution of `ParseWithBlockSupport` (lines 790-812):
a `$variable` (int / truncated float64 / `Sscanf "%d"` string / 0), or a
literal read with `Sscanf "%d"` (0 on failure). -/
def repeatCount (st : DslState) (countStr : Str) : Int :=
  if hasPre countStr "$".data then
    match lookupVar st (dropPre countStr "$".data) with
    | some (.vint n) => n
    | some (.vnum q) => Int.tdiv q.num (q.den : Int)
    | some (.vstr s) => (sscanfInt s).getD 0
    | some _ => 0
    | none => 0
  else (sscanfInt countStr).getD 0

/-- The inline array-literal parser of the `foreach` branch (lines 1023-1041):
trim the brackets, split on commas, trim whitespace and quotes, skip empties. -/
def parseArrayLiteral (listStr0 : Str) : List Value :=
  let listStr := trimCut listStr0 "[]".data
  if (trimSpace listStr).isEmpty then []
  else
    (splitOnCh ',' listStr).foldr
      (fun part acc =>
        let item := trimCut (trimSpace part) "\"'".data
        if item.isEmpty then acc else Value.vstr item :: acc) []

/-- The `foreach` item resolution (lines 1019-1074): a literal `[...]` on the
line, or a `$variable` holding an array or a string that starts with `[`. -/
def foreachItems (st : DslState) (listPart : Str) : List Value :=
  if hasPre listPart "[".data && hasSuf listPart "]".data then parseArrayLiteral listPart
  else if hasPre listPart "$".data then
    match lookupVar st (dropPre listPart "$".data) with
    | some (.varr xs) => xs
    | some (.vstr v) => if hasPre v "[".data then parseArrayLiteral v else []
    | some _ => []
    | none => []
  else []

/-- Marker error of the model's fuel counter: it renders a Go execution that is
still running when the allotted call budget ends (contains neither `break` nor
`continue` nor any source error text). -/
def fuelMsg : Str := "model: out of fuel".data

/-- The loop-variable writes at the top of a `repeat` iteration
(`SetVariable("_index", iteration)`, `SetVariable("_iteration", iteration+1)`). -/
def repeatIterVars (st : DslState) (i : Int) : DslState :=
  setVar (setVar st "_index".data (.vint i)) "_iteration".data (.vint (i + 1))

/-- The loop-variable write at the top of a `while` iteration
(`SetVariable("_iteration", iterations+1)`). -/
def whileIterVars (st : DslState) (iters : Nat) : DslState :=
  setVar st "_iteration".data (.vint ((iters : Int) + 1))

/-- The loop-variable writes at the top of a `foreach` iteration. -/
def foreachIterVars (st : DslState) (itemVar : Str) (item : Value) (idx : Nat) : DslState :=
  setVar (setVar (setVar st itemVar item) "_index".data (.vint (idx : Int)))
    "_iteration".data (.vint ((idx : Int) + 1))

/-- The combined result of one block-processor call: final interpreter state,
accumulated results, the two `LoopResult` flags, an optional error message, the
loop driver's iteration counter (`iterations` for `while`, `actualIterations`
for `repeat`/`foreach`), and a ghost count `runs` of completed
`ProcessLoopBody` executions (instrumentation only — no behaviour reads it). -/
structure RunOut where
  st : DslState
  vals : List Value := []
  brk : Bool := false
  cont : Bool := false
  err : Option Str := none
  iters : Nat := 0
  runs : Nat := 0

/-- The call tags of the block processor: `pwbs` is `ParseWithBlockSupport`
positioned at a line index, `plb` is `ProcessLoopBody`, `pifbwc` is
`ProcessIfBlockWithControl`, `eachLine` is the per-line re-entry that
`ProcessLoopBody` uses on nested loop blocks, and the three `…Iter` tags are
the iteration loops of the `repeat`/`while`/`foreach` drivers. -/
inductive Call where
  | pwbs (idx : Nat) (lines : List Str)
  | plb (idx : Nat) (lines : List Str)
  | pifbwc (block : List Str)
  | eachLine (lines : List Str)
  | repeatIter (count : Int) (body : List Str) (i : Int)
  | whileIter (cond : Str) (body : List Str) (iters : Nat)
  | foreachIter (itemVar : Str) (items : List Value) (body : List Str) (idx : Nat)

/-- The block processor.  Each case is the direct translation of the Go control
flow named in its `Call` tag; all recursion is on the fuel. -/
def run (o : Oracles) : Nat → Call → DslState → RunOut
  | 0, _, st => { st := st, err := some fuelMsg }
  | f + 1, c, st =>
    match c with
    | .pwbs idx lines =>
      match lines with
      | [] => { st := st }
      | l :: rest =>
        let T := trimSpace l
        if T.isEmpty || hasPre T "#".data || hasPre T "//".data then
          run o f (.pwbs (idx + 1) rest) st
        else if isHTTPMethodLine T then
          let hc := collectHeaderCont rest
          let pr := parseWithContext o st (joinSep " ".data (T :: hc.1))
          match pr.2 with
          | .error e =>
            { st := pr.1, err := some ("error parsing HTTP request: ".data ++ e) }
          | .ok v =>
            let r := run o f (.pwbs (idx + 1 + hc.2.2) hc.2.1) pr.1
            { r with vals := (if keepResult v then [v] else []) ++ r.vals }
        else if hasPre T "if ".data && hasSuf T " then".data then
          let cond := dropSuf (dropPre T "if ".data) " then".data
          let should := evalCondition st cond
          let ce := collectIf rest 1 false
          let chosen := if should then ce.thenB else ce.elseB
          if chosen.isEmpty then run o f (.pwbs (idx + 1 + ce.used) ce.rest) st
          else
            let br := run o f (.pwbs 0 chosen) st
            match br.err with
            | some e =>
              { st := br.st, err := some ("error processing block: ".data ++ e),
                runs := br.runs }
            | none =>
              let r := run o f (.pwbs (idx + 1 + ce.used) ce.rest) br.st
              { r with vals := br.vals ++ r.vals, runs := br.runs + r.runs }
        else if hasPre T "repeat ".data && hasSuf T " do".data then
          let parts := fieldsOf T
          if parts.length < 4 then
            { st := st, err := some ("invalid repeat syntax: ".data ++ T) }
          else
            let count := repeatCount st ((parts.drop 1).headD [])
            let cl := collectLoop rest 1
            let lr := run o f (.repeatIter count cl.body 0) st
            match lr.err with
            | some e => { st := lr.st, vals := lr.vals, err := some e, runs := lr.runs }
            | none =>
              let r := run o f (.pwbs (idx + 1 + cl.used) cl.rest) lr.st
              { r with
                vals := lr.vals ++
                  Value.vstr ("Repeated ".data ++ natToStr lr.iters ++ " times".data) ::
                    r.vals,
                runs := lr.runs + r.runs }
        else if hasPre T "while ".data && hasSuf T " do".data then
          let cond := dropSuf (dropPre T "while ".data) " do".data
          let cl := collectLoop rest 1
          let lr := run o f (.whileIter cond cl.body 0) st
          match lr.err with
          | some e => { st := lr.st, vals := lr.vals, err := some e, runs := lr.runs }
          | none =>
            if 1000 ≤ lr.iters then
              { st := lr.st, vals := lr.vals,
                err := some "while loop exceeded maximum iterations (1000)".data,
                runs := lr.runs }
            else
              let r := run o f (.pwbs (idx + 1 + cl.used) cl.rest) lr.st
              { r with
                vals := lr.vals ++
                  Value.vstr ("While loop executed ".data ++ natToStr lr.iters ++
                    " times".data) :: r.vals,
                runs := lr.runs + r.runs }
        else if hasPre T "foreach ".data && containsSub T " in ".data &&
            hasSuf T " do".data then
          let parts := splitOnSub T " in ".data
          if !(parts.length == 2) then
            { st := st, err := some ("invalid foreach syntax: ".data ++ T) }
          else
            let itemVar := dropPre (dropPre (parts.headD []) "foreach ".data) "$".data
            let listPart := dropSuf ((parts.drop 1).headD []) " do".data
            let cl := collectLoop rest 1
            let items := foreachItems st listPart
            let lr := run o f (.foreachIter itemVar items cl.body 0) st
            match lr.err with
            | some e => { st := lr.st, vals := lr.vals, err := some e, runs := lr.runs }
            | none =>
              let r := run o f (.pwbs (idx + 1 + cl.used) cl.rest) lr.st
              { r with
                vals := lr.vals ++
                  Value.vstr ("Foreach executed for ".data ++ natToStr lr.iters ++
                    " items".data) :: r.vals,
                runs := lr.runs + r.runs }
        else
          let inl : Option (Bool × Str) :=
            if hasPre T "if ".data && containsSub T " then ".data &&
                containsSub T " else ".data && !containsSub T "endif".data then
              match splitOn2 T " then ".data with
              | [p0, p1] =>
                match splitOn2 p1 " else ".data with
                | [thenStmt, elseStmt] =>
                  let should := varFieldsCond st (dropPre p0 "if ".data)
                  some (should, if should then thenStmt else elseStmt)
                | _ => none
              | _ => none
            else none
          match inl with
          | some (should, stmt) =>
            let pr := parseWithContext o st stmt
            match pr.2 with
            | .error e =>
              { st := pr.1,
                err := some ((if should then "error in then statement: ".data
                              else "error in else statement: ".data) ++ e) }
            | .ok v =>
              let r := run o f (.pwbs (idx + 1) rest) pr.1
              { r with vals := v :: r.vals }
          | none =>
            let pr := parseWithContext o st T
            match pr.2 with
            | .error e =>
              { st := pr.1,
                err := some ("error at line ".data ++ natToStr (idx + 1) ++
                  ": ".data ++ e) }
            | .ok v =>
              let r := run o f (.pwbs (idx + 1) rest) pr.1
              { r with vals := v :: r.vals }
    | .plb idx lines =>
      match lines with
      | [] => { st := st }
      | l :: rest =>
        let T := trimSpace l
        if T.isEmpty || hasPre T "#".data then run o f (.plb (idx + 1) rest) st
        else if T == "break".data then { st := st, brk := true }
        else if T == "continue".data then { st := st, cont := true }
        else if hasPre T "if ".data && hasSuf T " then".data then
          match extractIfBlock (l :: rest) 0 with
          | none =>
            { st := st, err := some ("malformed if block at line ".data ++ natToStr (idx + 1)) }
          | some (block, after) =>
            let ir := run o f (.pifbwc block) st
            match ir.err with
            | some e => { st := ir.st, err := some e, runs := ir.runs }
            | none =>
              if ir.brk then
                { st := ir.st, vals := ir.vals, brk := true, runs := ir.runs }
              else if ir.cont then
                { st := ir.st, vals := ir.vals, cont := true, runs := ir.runs }
              else
                let r := run o f (.plb (idx + block.length) after) ir.st
                { r with vals := ir.vals ++ r.vals, runs := ir.runs + r.runs }
        else if (hasPre T "while ".data && hasSuf T " do".data) ||
            (hasPre T "foreach ".data && containsSub T " in ".data &&
             hasSuf T " do".data) ||
            (hasPre T "repeat ".data && containsSub T " times do".data) then
          match extractLoopBlock (l :: rest) 0 with
          | none =>
            { st := st,
              err := some ("malformed loop block at line ".data ++ natToStr (idx + 1)) }
          | some (block, after) =>
            let er := run o f (.eachLine block) st
            match er.err with
            | some e => { st := er.st, err := some e, runs := er.runs }
            | none =>
              let r := run o f (.plb (idx + block.length) after) er.st
              { r with vals := er.vals ++ r.vals, runs := er.runs + r.runs }
        else
          let pr := parseWithContext o st T
          match pr.2 with
          | .error e =>
            { st := pr.1,
              err := some ("error processing line ".data ++ natToStr (idx + 1) ++
                ": ".data ++ e) }
          | .ok v =>
            let r := run o f (.plb (idx + 1) rest) pr.1
            { r with vals := (if keepResult v then [v] else []) ++ r.vals }
    | .pifbwc block =>
      match block with
      | [] => { st := st, err := some "invalid if block: too short".data }
      | [_] => { st := st, err := some "invalid if block: too short".data }
      | b0 :: brest =>
        let firstLine := trimSpace b0
        if !(hasPre firstLine "if ".data && hasSuf firstLine " then".data) then
          { st := st, err := some "invalid if block: missing if/then".data }
        else
          let cond := dropSuf (dropPre firstLine "if ".data) " then".data
          let should := evalCondition st cond
          let te := splitThenElse brest 0 false
          let chosen := if should then te.1 else te.2
          if chosen.isEmpty then { st := st }
          else
            let br := run o f (.pwbs 0 chosen) st
            match br.err with
            | some e =>
              if containsSub e "break".data then
                { st := br.st, brk := true, runs := br.runs }
              else if containsSub e "continue".data then
                { st := br.st, cont := true, runs := br.runs }
              else { st := br.st, err := some e, runs := br.runs }
            | none =>
              match scanBC chosen with
              | some true => { st := br.st, vals := br.vals, brk := true, runs := br.runs }
              | some false =>
                { st := br.st, vals := br.vals, cont := true, runs := br.runs }
              | none => { st := br.st, vals := br.vals, runs := br.runs }
    | .eachLine lines =>
      match lines with
      | [] => { st := st }
      | l :: rest =>
        let pr := run o f (.pwbs 0 [l]) st
        match pr.err with
        | some e => { st := pr.st, err := some e, runs := pr.runs }
        | none =>
          let r := run o f (.eachLine rest) pr.st
          { r with
            vals := (if pr.vals.isEmpty then [] else [Value.varr pr.vals]) ++ r.vals,
            runs := pr.runs + r.runs }
    | .repeatIter count body i =>
      if !(i < count) then { st := st }
      else
        let st1 := repeatIterVars st i
        let lr := run o f (.plb 0 body) st1
        match lr.err with
        | some e =>
          { st := lr.st,
            err := some ("error in loop iteration ".data ++ intToStr (i + 1) ++
              ": ".data ++ e),
            runs := lr.runs }
        | none =>
          let iterVals := lr.vals.filter keepResult
          if lr.cont then
            let r := run o f (.repeatIter count body (i + 1)) lr.st
            { r with vals := iterVals ++ r.vals, iters := r.iters + 1,
                     runs := lr.runs + 1 + r.runs }
          else if lr.brk then
            { st := lr.st, vals := iterVals, iters := 1, runs := lr.runs + 1 }
          else
            let r := run o f (.repeatIter count body (i + 1)) lr.st
            { r with vals := iterVals ++ r.vals, iters := r.iters + 1,
                     runs := lr.runs + 1 + r.runs }
    | .whileIter cond body iters =>
      if !(iters < 1000) then { st := st, iters := iters }
      else if !(varFieldsCond st cond) then { st := st, iters := iters }
      else
        let st1 := whileIterVars st iters
        let lr := run o f (.plb 0 body) st1
        match lr.err with
        | some e =>
          { st := lr.st,
            err := some ("error in while loop iteration ".data ++ natToStr (iters + 1) ++
              ": ".data ++ e),
            iters := iters, runs := lr.runs }
        | none =>
          let iterVals := lr.vals.filter keepResult
          if lr.cont then
            let r := run o f (.whileIter cond body iters) lr.st
            { r with vals := iterVals ++ r.vals, runs := lr.runs + 1 + r.runs }
          else if lr.brk then
            { st := lr.st, vals := iterVals, iters := iters, runs := lr.runs + 1 }
          else
            let r := run o f (.whileIter cond body (iters + 1)) lr.st
            { r with vals := iterVals ++ r.vals, runs := lr.runs + 1 + r.runs }
    | .foreachIter itemVar items body idx =>
      match items.drop idx with
      | [] => { st := st }
      | item :: _ =>
        let st1 := foreachIterVars st itemVar item idx
        let lr := run o f (.plb 0 body) st1
        match lr.err with
        | some e =>
          { st := lr.st,
            err := some ("error in foreach iteration ".data ++ natToStr (idx + 1) ++
              ": ".data ++ e),
            runs := lr.runs }
        | none =>
          let iterVals := lr.vals.filter keepResult
          if lr.cont then
            let r := run o f (.foreachIter itemVar items body (idx + 1)) lr.st
            { r with vals := iterVals ++ r.vals, iters := r.iters + 1,
                     runs := lr.runs + 1 + r.runs }
          else if lr.brk then
            { st := lr.st, vals := iterVals, iters := 1, runs := lr.runs + 1 }
          else
            let r := run o f (.foreachIter itemVar items body (idx + 1)) lr.st
            { r with vals := iterVals ++ r.vals, iters := r.iters + 1,
                     runs := lr.runs + 1 + r.runs }

/-- Model of `HTTPDSLv3.ParseWithBlockSupport` as the callers use it: split the
code on newlines and process from the first line.  (The method does not clear
the execution context.) -/
def parseWithBlockSupport (o : Oracles) (fuel : Nat) (st : DslState) (code : Str) : RunOut :=
  run o fuel (.pwbs 0 (splitOnCh '\n' code)) st

/-! ### Spec-side definitions used by refinement claims -/

/-- The comparison rule as the specification words it (§4.3): coerce both sides
to strings; when both parse as floating-point numbers (a full-string parse),
compare numerically, otherwise lexicographically on the stringified forms. -/
def specCompareStrs (left op right : Str) : Bool :=
  match parseFloatFull left, parseFloatFull right with
  | some a, some b =>
    if op == "==".data then qEq a b
    else if op == "!=".data then !qEq a b
    else if op == ">".data then qLt b a
    else if op == ">=".data then qLe b a
    else if op == "<".data then qLt a b
    else if op == "<=".data then qLe a b
    else false
  | _, _ =>
    if op == "==".data then left == right
    else if op == "!=".data then left != right
    else if op == ">".data then strLt right left
    else if op == ">=".data then (strLt right left || left == right)
    else if op == "<".data then strLt left right
    else if op == "<=".data then (strLt left right || left == right)
    else false

/-- The comparison rule the block evaluator actually implements (the amended
form of C7): `int`/`float64` sides are numeric, a string side is numeric when a
float can be read from its *leading prefix* (`Sscanf "%f"` semantics), and the
comparison is numeric iff both sides are numeric, lexicographic on `%v`
renderings otherwise. -/
def specBlockCompare (left : Value) (op : Str) (right : Value) : Bool :=
  match numFlag left, numFlag right with
  | some a, some b =>
    if op == "==".data then qEq a b
    else if op == "!=".data then !qEq a b
    else if op == ">".data then qLt b a
    else if op == ">=".data then qLe b a
    else if op == "<".data then qLt a b
    else if op == "<=".data then qLe a b
    else false
  | _, _ =>
    if op == "==".data then gofmt left == gofmt right
    else if op == "!=".data then gofmt left != gofmt right
    else if op == ">".data then strLt (gofmt right) (gofmt left)
    else if op == ">=".data then (strLt (gofmt right) (gofmt left) || gofmt left == gofmt right)
    else if op == "<".data then strLt (gofmt left) (gofmt right)
    else if op == "<=".data then (strLt (gofmt left) (gofmt right) || gofmt left == gofmt right)
    else false

/-! ### Supporting lemmas -/

/-- `strings.Replace` leaves a string without any occurrence of the pattern
unchanged (fuel-level version). -/
theorem repGo_eq_of_not_contains (old new : Str) :
    ∀ f s, s.length ≤ f → containsSub s old = false → repGo old new f s = s := by
  intro f
  induction f with
  | zero => intro s _ _; rfl
  | succ f ih =>
    intro s hlen hc
    cases s with
    | nil => rfl
    | cons c t =>
      have h2 : hasPre (c :: t) old = false ∧ containsSub t old = false := by
        have := hc
        simp [containsSub] at this
        exact ⟨this.1, this.2⟩
      simp [repGo, h2.1, ih t (by simpa using Nat.le_of_succ_le_succ hlen) h2.2]

/-- `strings.ReplaceAll` leaves a string without any occurrence of the pattern
unchanged. -/
theorem replaceAll_eq_of_not_contains (s old new : Str)
    (h : containsSub s old = false) : replaceAll s old new = s := by
  unfold replaceAll
  by_cases he : old.isEmpty
  · simp [he]
  · simp [he, repGo_eq_of_not_contains old new s.length s (Nat.le_refl _) h]

/-- `expandVariables` leaves a string untouched when no stored variable's
`$name` pattern occurs in it. -/
theorem expandVarsList_eq_of_no_occurrence :
    ∀ (l : List (Str × Value)) (s : Str),
      (∀ p ∈ l, containsSub s ('$' :: p.1) = false) → expandVarsList l s = s := by
  intro l
  induction l with
  | nil => intro s _; rfl
  | cons p t ih =>
    intro s h
    have h1 : replaceAll s ('$' :: p.1) (gofmt p.2) = s :=
      replaceAll_eq_of_not_contains _ _ _ (h p (List.mem_cons_self p t))
    calc expandVarsList (p :: t) s
        = expandVarsList t (replaceAll s ('$' :: p.1) (gofmt p.2)) := rfl
      _ = expandVarsList t s := by rw [h1]
      _ = s := ih s (fun q hq => h q (List.mem_cons_of_mem p hq))

/-- A `$`-free string contains no `$name` pattern. -/
theorem containsSub_dollar_eq_false (r : Str) :
    ∀ s : Str, s.contains '$' = false → containsSub s ('$' :: r) = false := by
  intro s
  induction s with
  | nil => intro _; rfl
  | cons c t ih =>
    intro h
    simp [List.contains_cons] at h
    have ht : t.contains '$' = false := by
      simp
      exact h.2
    simp [containsSub, hasPre, ih ht]
    intro hc
    exact absurd hc.symm h.1

/-- Writing a variable makes it the one `lookupVar` finds. -/
theorem find_setVarList (n : Str) (v : Value) :
    ∀ l : List (Str × Value), (setVarList l n v).find? (fun p => p.1 == n) = some (n, v) := by
  intro l
  induction l with
  | nil => simp [setVarList, List.find?]
  | cons p t ih =>
    by_cases hp : p.1 == n
    · simp [setVarList, hp, List.find?]
    · simp [setVarList, hp, List.find?, ih]

/-- `lookupVar` after `setVar` of the same name. -/
theorem lookupVar_setVar (st : DslState) (n : Str) (v : Value) :
    lookupVar (setVar st n v) n = some v := by
  simp [lookupVar, setVar, find_setVarList]

/-- `engineCompare` refines the specification's wording: numeric iff both
stringified sides fully parse as floats, lexicographic otherwise. -/
theorem engineCompare_eq_spec (l : Value) (op : Str) (r : Value) :
    engineCompare l op r = specCompareStrs (gofmt l) op (gofmt r) := by
  simp only [engineCompare, specCompareStrs, numSwitch, strSwitch]
  by_cases h1 : op == "==".data
  · cases parseFloatFull (gofmt l) <;> cases parseFloatFull (gofmt r) <;> simp [h1]
  by_cases h2 : op == "!=".data
  · cases parseFloatFull (gofmt l) <;> cases parseFloatFull (gofmt r) <;> simp [h1, h2]
  by_cases h3 : op == ">".data
  · cases parseFloatFull (gofmt l) <;> cases parseFloatFull (gofmt r) <;> simp [h1, h2, h3]
  by_cases h4 : op == ">=".data
  · cases parseFloatFull (gofmt l) <;> cases parseFloatFull (gofmt r) <;> simp [h1, h2, h3, h4]
  by_cases h5 : op == "<".data
  · cases parseFloatFull (gofmt l) <;> cases parseFloatFull (gofmt r) <;>
      simp [h1, h2, h3, h4, h5]
  by_cases h6 : op == "<=".data
  · cases parseFloatFull (gofmt l) <;> cases parseFloatFull (gofmt r) <;>
      simp [h1, h2, h3, h4, h5, h6]
  cases parseFloatFull (gofmt l) <;> cases parseFloatFull (gofmt r) <;>
    simp [h1, h2, h3, h4, h5, h6]

/-- `CompareValues` refines the amended (Sscanf-prefix) comparison rule. -/
theorem compareValues_eq_specBlock (l : Value) (op : Str) (r : Value) :
    compareValues l op r = specBlockCompare l op r := by
  simp only [compareValues, specBlockCompare, numSwitch, strSwitch]
  by_cases h1 : op == "==".data
  · cases numFlag l <;> cases numFlag r <;> simp [h1]
  by_cases h2 : op == "!=".data
  · cases numFlag l <;> cases numFlag r <;> simp [h1, h2]
  by_cases h3 : op == ">".data
  · cases numFlag l <;> cases numFlag r <;> simp [h1, h2, h3]
  by_cases h4 : op == ">=".data
  · cases numFlag l <;> cases numFlag r <;> simp [h1, h2, h3, h4]
  by_cases h5 : op == "<".data
  · cases numFlag l <;> cases numFlag r <;> simp [h1, h2, h3, h4, h5]
  by_cases h6 : op == "<=".data
  · cases numFlag l <;> cases numFlag r <;> simp [h1, h2, h3, h4, h5, h6]
  cases numFlag l <;> cases numFlag r <;> simp [h1, h2, h3, h4, h5, h6]

end HttpDsl

namespace HttpDsl
theorem repeat_break (o : Oracles) (f : Nat) (count : Int) (body : List Str)
    (st : DslState) (lr : RunOut)
    (h : run o f (.plb 0 body) (repeatIterVars st 0) = lr)
    (herr : lr.err = none) (hcont : lr.cont = false) (hbrk : lr.brk = true)
    (hcount : (0 : Int) < count) :
    run o (f + 1) (.repeatIter count body 0) st =
      { st := lr.st, vals := lr.vals.filter keepResult, brk := false, cont := false,
        err := none, iters := 1, runs := lr.runs + 1 } := by
  rw [run.eq_11]
  rw [decide_eq_true hcount]
  simp only [Bool.not_true, Bool.false_eq_true, if_false]
  rw [h, herr]
  simp only [hcont, hbrk]
  simp
end HttpDsl
namespace HttpDsl
theorem repeat_continue (o : Oracles) (f : Nat) (count : Int) (body : List Str)
    (st : DslState) (lr : RunOut)
    (h : run o f (.plb 0 body) (repeatIterVars st 0) = lr)
    (herr : lr.err = none) (hcont : lr.cont = true)
    (hcount : (0 : Int) < count) :
    run o (f + 1) (.repeatIter count body 0) st =
      (let r := run o f (.repeatIter count body 1) lr.st
       { st := r.st, vals := lr.vals.filter keepResult ++ r.vals, brk := r.brk,
         cont := r.cont, err := r.err, iters := r.iters + 1,
         runs := lr.runs + 1 + r.runs }) := by
  rw [run.eq_11]
  rw [decide_eq_true hcount]
  simp only [Bool.not_true, Bool.false_eq_true, if_false]
  rw [h, herr]
  simp only [hcont]
  simp

theorem while_break (o : Oracles) (f iters : Nat) (cond : Str) (body : List Str)
    (st : DslState) (lr : RunOut)
    (hlt : iters < 1000) (hc : varFieldsCond st cond = true)
    (h : run o f (.plb 0 body) (whileIterVars st iters) = lr)
    (herr : lr.err = none) (hcont : lr.cont = false) (hbrk : lr.brk = true) :
    run o (f + 1) (.whileIter cond body iters) st =
      { st := lr.st, vals := lr.vals.filter keepResult, brk := false, cont := false,
        err := none, iters := iters, runs := lr.runs + 1 } := by
  rw [run.eq_12]
  rw [decide_eq_true hlt]
  simp only [Bool.not_true, Bool.false_eq_true, if_false, hc, Bool.not_false, if_true]
  rw [h, herr]
  simp only [hcont, hbrk]
  simp

theorem while_continue (o : Oracles) (f iters : Nat) (cond : Str) (body : List Str)
    (st : DslState) (lr : RunOut)
    (hlt : iters < 1000) (hc : varFieldsCond st cond = true)
    (h : run o f (.plb 0 body) (whileIterVars st iters) = lr)
    (herr : lr.err = none) (hcont : lr.cont = true) :
    run o (f + 1) (.whileIter cond body iters) st =
      (let r := run o f (.whileIter cond body iters) lr.st
       { st := r.st, vals := lr.vals.filter keepResult ++ r.vals, brk := r.brk,
         cont := r.cont, err := r.err, iters := r.iters,
         runs := lr.runs + 1 + r.runs }) := by
  rw [run.eq_12]
  rw [decide_eq_true hlt]
  simp only [Bool.not_true, Bool.false_eq_true, if_false, hc, Bool.not_false, if_true]
  rw [h, herr]
  simp only [hcont]
  simp

theorem while_normal_exit (o : Oracles) (f iters : Nat) (cond : Str) (body : List Str)
    (st : DslState) (hlt : iters < 1000) (hc : varFieldsCond st cond = false) :
    run o (f + 1) (.whileIter cond body iters) st =
      { st := st, vals := [], brk := false, cont := false, err := none,
        iters := iters, runs := 0 } := by
  rw [run.eq_12]
  rw [decide_eq_true hlt]
  simp [hc]
end HttpDsl
namespace HttpDsl
theorem scanBC_isSome_of_break_mem :
    ∀ lines : List Str, "break".data ∈ lines.map trimSpace → scanBC lines ≠ none := by
  intro lines
  induction lines with
  | nil => intro h; simp at h
  | cons l t ih =>
    intro h
    unfold scanBC
    by_cases h1 : trimSpace l == "break".data
    · simp [h1]
    · by_cases h2 : trimSpace l == "continue".data
      · simp [h1, h2]
      · simp [h1, h2]
        apply ih
        rw [List.map_cons, List.mem_cons] at h
        cases h with
        | inl he => exact absurd (by simp [he.symm]) h1
        | inr hm => exact hm

theorem pifbwc_transparency (o : Oracles) (f : Nat) (st : DslState)
    (b0 b1 : Str) (brest : List Str)
    (hfirst : (hasPre (trimSpace b0) "if ".data && hasSuf (trimSpace b0) " then".data) = true)
    (hmem : "break".data ∈
      (if evalCondition st (dropSuf (dropPre (trimSpace b0) "if ".data) " then".data) then
        (splitThenElse (b1 :: brest) 0 false).1
      else (splitThenElse (b1 :: brest) 0 false).2).map trimSpace)
    (herr : (run o (f + 1) (.pifbwc (b0 :: b1 :: brest)) st).err = none) :
    (run o (f + 1) (.pifbwc (b0 :: b1 :: brest)) st).brk = true ∨
    (run o (f + 1) (.pifbwc (b0 :: b1 :: brest)) st).cont = true := by
  rw [run.eq_8 o st f b0 (b1 :: brest) (by simp)] at herr ⊢
  simp only [hfirst, Bool.not_true, Bool.false_eq_true, if_false] at herr ⊢
  set chosen := (if evalCondition st (dropSuf (dropPre (trimSpace b0) "if ".data) " then".data) = true then
        (splitThenElse (b1 :: brest) 0 false).1
      else (splitThenElse (b1 :: brest) 0 false).2) with hch
  have hne : chosen.isEmpty = false := by
    cases hc : chosen with
    | nil =>
      rw [hc] at hmem
      simp at hmem
    | cons a b => simp [hc]
  simp only [hne, Bool.false_eq_true, if_false] at herr ⊢
  cases hrr : (run o f (.pwbs 0 chosen) st).err with
  | some e =>
    by_cases hb : containsSub e "break".data
    · simp [hb]
    · by_cases hcnt : containsSub e "continue".data
      · simp [hb, hcnt]
      · rw [hrr] at herr
        simp [hb, hcnt] at herr
  | none =>
    cases hsc : scanBC chosen with
    | none => exact absurd hsc (scanBC_isSome_of_break_mem chosen hmem)
    | some b => cases b <;> simp [hsc]
end HttpDsl
namespace HttpDsl
theorem foreach_break (o : Oracles) (f : Nat) (itemVar : Str) (items : List Value)
    (body : List Str) (idx : Nat) (st : DslState) (item : Value) (tl : List Value)
    (lr : RunOut)
    (hdrop : items.drop idx = item :: tl)
    (h : run o f (.plb 0 body) (foreachIterVars st itemVar item idx) = lr)
    (herr : lr.err = none) (hcont : lr.cont = false) (hbrk : lr.brk = true) :
    run o (f + 1) (.foreachIter itemVar items body idx) st =
      { st := lr.st, vals := lr.vals.filter keepResult, brk := false, cont := false,
        err := none, iters := 1, runs := lr.runs + 1 } := by
  rw [run.eq_13]
  rw [hdrop]
  simp only []
  rw [h, herr]
  simp only [hcont, hbrk]
  simp

theorem foreach_continue (o : Oracles) (f : Nat) (itemVar : Str) (items : List Value)
    (body : List Str) (idx : Nat) (st : DslState) (item : Value) (tl : List Value)
    (lr : RunOut)
    (hdrop : items.drop idx = item :: tl)
    (h : run o f (.plb 0 body) (foreachIterVars st itemVar item idx) = lr)
    (herr : lr.err = none) (hcont : lr.cont = true) :
    run o (f + 1) (.foreachIter itemVar items body idx) st =
      (let r := run o f (.foreachIter itemVar items body (idx + 1)) lr.st
       { st := r.st, vals := lr.vals.filter keepResult ++ r.vals, brk := r.brk,
         cont := r.cont, err := r.err, iters := r.iters + 1,
         runs := lr.runs + 1 + r.runs }) := by
  rw [run.eq_13]
  rw [hdrop]
  simp only []
  rw [h, herr]
  simp only [hcont]
  simp
end HttpDsl

namespace HttpDsl
def c3cond : Str := "$x < 10".data
def c3body : List Str := ["continue".data]
def c3stable : DslState :=
  { vars := [("x".data, Value.vnum (qOfInt 0)), ("_iteration".data, Value.vint 1)] }
def c3wrap : Str := "error in while loop iteration 1: model: out of fuel".data
def c3stx : DslState := { vars := [("x".data, Value.vnum (qOfInt 0))] }
def c3script : Str := "set $x 0\nwhile $x < 10 do\ncontinue\nendloop".data

theorem c3_loop (o : Oracles) : ∀ n, run o (n+2) (.whileIter c3cond c3body 0) c3stable =
    { st := c3stable, vals := [], err := some c3wrap, iters := 0, runs := n+1 } := by
  intro n
  induction n with
  | zero => rfl
  | succ n ih =>
    have step : run o (n+1+2) (.whileIter c3cond c3body 0) c3stable =
      (let r := run o (n+2) (.whileIter c3cond c3body 0) c3stable
       { r with vals := r.vals, runs := 0+1+r.runs }) := rfl
    rw [step, ih]
    simp
    omega

theorem c3_start (o : Oracles) (n : Nat) :
    run o (n+3) (.whileIter c3cond c3body 0) c3stx =
      { st := c3stable, vals := [], err := some c3wrap, iters := 0, runs := n+2 } := by
  have step : run o (n+3) (.whileIter c3cond c3body 0) c3stx =
      (let r := run o (n+2) (.whileIter c3cond c3body 0) c3stable
       { r with vals := r.vals, runs := 0+1+r.runs }) := rfl
  rw [step, c3_loop o n]
  simp
  omega

theorem c3_script_run (o : Oracles) (n : Nat) :
    parseWithBlockSupport o (n+5) {} c3script =
      { st := c3stable, vals := [Value.vstr "Variable $x set to 0".data],
        err := some c3wrap, iters := 0, runs := n+2 } := by
  have e1 : parseWithBlockSupport o (n+5) {} c3script =
      (let r := run o (n+4)
          (.pwbs 1 ["while $x < 10 do".data, "continue".data, "endloop".data]) c3stx
       { r with vals := Value.vstr "Variable $x set to 0".data :: r.vals }) := rfl
  have e2 : run o (n+4)
      (.pwbs 1 ["while $x < 10 do".data, "continue".data, "endloop".data]) c3stx =
      (let lr := run o (n+3) (.whileIter c3cond c3body 0) c3stx
       match lr.err with
       | some e => { st := lr.st, vals := lr.vals, err := some e, runs := lr.runs }
       | none =>
         if 1000 ≤ lr.iters then
           { st := lr.st, vals := lr.vals,
             err := some "while loop exceeded maximum iterations (1000)".data,
             runs := lr.runs }
         else
           let r := run o (n+3) (.pwbs 4 ([] : List Str)) lr.st
           { r with
             vals := lr.vals ++ Value.vstr ("While loop executed ".data ++
               natToStr lr.iters ++ " times".data) :: r.vals,
             runs := lr.runs + r.runs }) := rfl
  rw [e1, e2, c3_start o n]
end HttpDsl

namespace HttpDsl
def c5script : Str := "GET \"http://h/x\"\nset $after \"1\"".data

theorem requestTarget_http (es : EngineState) :
    requestTarget es "http://h/x".data = "http://h/x".data := by
  simp [requestTarget, show hasPre "http://h/x".data "http".data = true from rfl]

theorem expandVars_url (st : DslState) :
    expandVariables st "http://h/x".data = "http://h/x".data :=
  expandVarsList_eq_of_no_occurrence _ _
    (fun p _ => containsSub_dollar_eq_false _ _ (by decide))

theorem pwc_get (o : Oracles) (st : DslState) (e : Str)
    (h : o.doReq "GET".data "http://h/x".data {} = .error e) :
    parseWithContext o st "GET \"http://h/x\"".data =
      ({ st with engine := { st.engine with lastTimeMs := qOfInt 0 } },
       .error ("request failed: ".data ++ e)) := by
  unfold parseWithContext
  rw [show tokenize "GET \"http://h/x\"".data =
      some [Tok.kw "GET".data, Tok.tstr "\"http://h/x\"".data] from rfl]
  simp only [execToks]
  rw [show ("GET".data == "print".data) = false from rfl,
      show methodList.contains "GET".data = true from rfl]
  simp only [Bool.false_eq_true, if_false, if_true, execHttp, evalUrlValue]
  rw [show unquoteString "\"http://h/x\"".data = "http://h/x".data from rfl]
  rw [show (expandVariables st "http://h/x".data) = "http://h/x".data from expandVars_url st]
  simp only [parseOpts, engineRequest]
  simp +decide [requestTarget, h]
end HttpDsl
namespace HttpDsl
theorem c5_general (o : Oracles) (st : DslState) (e : Str) (f : Nat)
    (h : o.doReq "GET".data "http://h/x".data {} = .error e) :
    parseWithBlockSupport o (f + 1) st c5script =
      { st := { st with engine := { st.engine with lastTimeMs := qOfInt 0 } },
        err := some ("error parsing HTTP request: request failed: ".data ++ e) } := by
  unfold parseWithBlockSupport
  rw [show splitOnCh '\n' c5script =
      ["GET \"http://h/x\"".data, "set $after \"1\"".data] from rfl]
  simp only [run]
  rw [show trimSpace "GET \"http://h/x\"".data = "GET \"http://h/x\"".data from rfl]
  rw [show collectHeaderCont ["set $after \"1\"".data] =
      ([], ["set $after \"1\"".data], 0) from rfl]
  simp +decide [isHTTPMethodLine, joinSep, pwc_get o st e h]
end HttpDsl

namespace HttpDsl

/-! ### Concrete scenario material for the claim theorems -/

/-- An oracle assignment for concrete runs: every HTTP request fails with the
network error "net down" and every extraction query matches nothing.  Scripts
that perform no HTTP request and no extraction never consult it. -/
def oraclesNone : Oracles :=
  ⟨fun _ _ _ => .error "net down".data, fun _ _ => none, fun _ _ => none, fun _ _ => none⟩

/-- The exact example script of the C1 claim. -/
def c1script : Str := "if 5 > 3 then set $a \"Y\" else set $a \"N\"".data

/-- C1.  The single-line `if <cond> then X else Y` handler of
`ParseWithBlockSupport` (`part_009` lines 1113-1189) resolves the left side of
the condition only through `hd.variables`; for the literal condition `5 > 3`
the lookup fails, `shouldExecuteThen` stays `false`, and the else branch runs:
the claim's own example script ends with `a = "N"`, not `"Y"`, with no error
reported.  This refutes the claim that exactly the true branch is executed. -/
theorem C1_single_line_if_literal_condition_takes_else :
    lookupVar (parseWithBlockSupport oraclesNone 9 {} c1script).st "a".data =
      some (Value.vstr "N".data) ∧
    (parseWithBlockSupport oraclesNone 9 {} c1script).err = none :=
  ⟨rfl, rfl⟩

/-- C8.  `toBool` (`part_010` lines 1464-1489) matches `case int, int64,
float64: return val != 0` in one multi-value type switch; the comparison
`val != 0` compares a `float64`-typed interface against the untyped-int
literal boxed as `int`, which is never equal, so `float64(0)` is truthy.
The claim (and the code's own doc) says every numeric zero is falsy; the
integer zero, null, `false`, `""`, `"false"` and `"0"` do behave as claimed,
and a nonempty other string is truthy. -/
theorem C8_float_zero_is_truthy :
    toBool (Value.vnum (qOfInt 0)) = true ∧
    toBool (Value.vint 0) = false ∧
    toBool Value.vnull = false ∧
    toBool (Value.vbool false) = false ∧
    toBool (Value.vstr []) = false ∧
    toBool (Value.vstr "false".data) = false ∧
    toBool (Value.vstr "0".data) = false ∧
    toBool (Value.vstr "x".data) = true := by
  decide

/-- A variable store listing `a` before `ab`, and the same store listed the
other way: the same Go map contents in two iteration orders. -/
def c9storeA : DslState :=
  { vars := [("a".data, Value.vstr "1".data), ("ab".data, Value.vstr "2".data)] }

/-- The store of `c9storeA` in the opposite iteration order. -/
def c9storeB : DslState :=
  { vars := [("ab".data, Value.vstr "2".data), ("a".data, Value.vstr "1".data)] }

/-- C9.  `expandVariables` (`part_010` lines 1284-1330) applies
`strings.ReplaceAll` once per stored variable, in Go map iteration order,
which is unspecified.  The two orders of the same store expand `$ab` to
different strings (`a` first turns `$ab` into `1b`; `ab` first yields `2`),
so the final variable map of a run is not determined by script text, initial
variables and responses alone, refuting the determinism claim. -/
theorem C9_expansion_depends_on_iteration_order :
    c9storeA.vars.Perm c9storeB.vars ∧
    expandVariables c9storeA "$ab".data = "1b".data ∧
    expandVariables c9storeB "$ab".data = "2".data ∧
    expandVariables c9storeA "$ab".data ≠ expandVariables c9storeB "$ab".data := by
  refine ⟨?_, rfl, rfl, by decide⟩
  exact List.Perm.swap _ _ _

end HttpDsl

namespace HttpDsl

/-- A repeat loop whose body hits a grammar-level `continue` (inside an `if`
block) on every iteration; the statement after the `if` is never reached. -/
def c2continueScript : Str :=
  "repeat 2 times do\nif $x == 1 then\ncontinue\nendif\nset $y \"reached\"\nendloop".data

/-- Initial store for `c2continueScript`: `x` is `"1"`, so the `if` branch is
taken on every iteration. -/
def c2continueStart : DslState := { vars := [("x".data, Value.vstr "1".data)] }

/-- A `while` loop that increments `$i` and executes `break` inside a nested
`if` block once `$i` reaches 3, followed by a statement after the loop. -/
def c2breakScript : Str :=
  "set $i 0\nwhile $i < 10 do\nset $i $i + 1\nif $i == 3 then\nbreak\nendif\nendloop\nset $done \"yes\"".data

/-- C2 counterexample.  The script completes its repeat loop normally (no
error, no pending block-level signal: `brk` and `cont` of the final `RunOut`
are false, and `$y` was indeed skipped by `continue` each iteration), yet the
parser-context continue flag set by the grammar-executed `continue` statement
(`part_010`'s `continueStatement` action sets `ShouldContinue` and nothing in
the block path ever clears it) is still raised after the loop - and after the
whole script - has exited.  This refutes "neither signal survives past a
normal loop exit". -/
theorem C2_counterexample_continue_flag_survives_normal_exit :
    (parseWithBlockSupport oraclesNone 20 c2continueStart c2continueScript).err = none ∧
    (parseWithBlockSupport oraclesNone 20 c2continueStart c2continueScript).brk = false ∧
    (parseWithBlockSupport oraclesNone 20 c2continueStart c2continueScript).cont = false ∧
    lookupVar (parseWithBlockSupport oraclesNone 20 c2continueStart c2continueScript).st
      "y".data = none ∧
    (parseWithBlockSupport oraclesNone 20 c2continueStart c2continueScript).st.ctxContinue
      = true :=
  ⟨rfl, rfl, rfl, rfl, rfl⟩

/-- C2 (amended).  The `LoopResult`-level signals behave as the claim says:
a body run (`ProcessLoopBody`) that reports `break` terminates exactly the
innermost driver (`repeat`, `while` and `foreach` alike) and the driver's own
result carries no signal; a reported `continue` advances that driver to its
next iteration; a normal condition-exit carries no signal; an `if` block inside
a loop body forwards a `break` found in its executed branch to the enclosing
loop instead of consuming it; and concretely, `break` in a nested `if` inside a
`while` ends the `while` with `$i = 3` and execution continues after the loop.
However (the correction) the parser-context flag raised by the grammar-level
`break` statement survives the loop and the script. -/
theorem C2_amended_loop_signal_discipline :
    (∀ (o : Oracles) (f : Nat) (count : Int) (body : List Str) (st : DslState) (lr : RunOut),
       run o f (.plb 0 body) (repeatIterVars st 0) = lr → lr.err = none →
       lr.cont = false → lr.brk = true → (0 : Int) < count →
       run o (f + 1) (.repeatIter count body 0) st =
         { st := lr.st, vals := lr.vals.filter keepResult, brk := false, cont := false,
           err := none, iters := 1, runs := lr.runs + 1 }) ∧
    (∀ (o : Oracles) (f iters : Nat) (cond : Str) (body : List Str) (st : DslState)
       (lr : RunOut),
       iters < 1000 → varFieldsCond st cond = true →
       run o f (.plb 0 body) (whileIterVars st iters) = lr → lr.err = none →
       lr.cont = false → lr.brk = true →
       run o (f + 1) (.whileIter cond body iters) st =
         { st := lr.st, vals := lr.vals.filter keepResult, brk := false, cont := false,
           err := none, iters := iters, runs := lr.runs + 1 }) ∧
    (∀ (o : Oracles) (f : Nat) (itemVar : Str) (items : List Value) (body : List Str)
       (idx : Nat) (st : DslState) (item : Value) (tl : List Value) (lr : RunOut),
       items.drop idx = item :: tl →
       run o f (.plb 0 body) (foreachIterVars st itemVar item idx) = lr → lr.err = none →
       lr.cont = false → lr.brk = true →
       run o (f + 1) (.foreachIter itemVar items body idx) st =
         { st := lr.st, vals := lr.vals.filter keepResult, brk := false, cont := false,
           err := none, iters := 1, runs := lr.runs + 1 }) ∧
    (∀ (o : Oracles) (f : Nat) (count : Int) (body : List Str) (st : DslState) (lr : RunOut),
       run o f (.plb 0 body) (repeatIterVars st 0) = lr → lr.err = none → lr.cont = true →
       (0 : Int) < count →
       run o (f + 1) (.repeatIter count body 0) st =
         (let r := run o f (.repeatIter count body 1) lr.st
          { st := r.st, vals := lr.vals.filter keepResult ++ r.vals, brk := r.brk,
            cont := r.cont, err := r.err, iters := r.iters + 1,
            runs := lr.runs + 1 + r.runs })) ∧
    (∀ (o : Oracles) (f iters : Nat) (cond : Str) (body : List Str) (st : DslState)
       (lr : RunOut),
       iters < 1000 → varFieldsCond st cond = true →
       run o f (.plb 0 body) (whileIterVars st iters) = lr → lr.err = none → lr.cont = true →
       run o (f + 1) (.whileIter cond body iters) st =
         (let r := run o f (.whileIter cond body iters) lr.st
          { st := r.st, vals := lr.vals.filter keepResult ++ r.vals, brk := r.brk,
            cont := r.cont, err := r.err, iters := r.iters,
            runs := lr.runs + 1 + r.runs })) ∧
    (∀ (o : Oracles) (f : Nat) (itemVar : Str) (items : List Value) (body : List Str)
       (idx : Nat) (st : DslState) (item : Value) (tl : List Value) (lr : RunOut),
       items.drop idx = item :: tl →
       run o f (.plb 0 body) (foreachIterVars st itemVar item idx) = lr → lr.err = none →
       lr.cont = true →
       run o (f + 1) (.foreachIter itemVar items body idx) st =
         (let r := run o f (.foreachIter itemVar items body (idx + 1)) lr.st
          { st := r.st, vals := lr.vals.filter keepResult ++ r.vals, brk := r.brk,
            cont := r.cont, err := r.err, iters := r.iters + 1,
            runs := lr.runs + 1 + r.runs })) ∧
    (∀ (o : Oracles) (f iters : Nat) (cond : Str) (body : List Str) (st : DslState),
       iters < 1000 → varFieldsCond st cond = false →
       run o (f + 1) (.whileIter cond body iters) st =
         { st := st, vals := [], brk := false, cont := false, err := none,
           iters := iters, runs := 0 }) ∧
    (∀ (o : Oracles) (f : Nat) (st : DslState) (b0 b1 : Str) (brest : List Str),
       (hasPre (trimSpace b0) "if ".data && hasSuf (trimSpace b0) " then".data) = true →
       "break".data ∈
         (if evalCondition st (dropSuf (dropPre (trimSpace b0) "if ".data) " then".data) then
           (splitThenElse (b1 :: brest) 0 false).1
         else (splitThenElse (b1 :: brest) 0 false).2).map trimSpace →
       (run o (f + 1) (.pifbwc (b0 :: b1 :: brest)) st).err = none →
       (run o (f + 1) (.pifbwc (b0 :: b1 :: brest)) st).brk = true ∨
       (run o (f + 1) (.pifbwc (b0 :: b1 :: brest)) st).cont = true) ∧
    ((parseWithBlockSupport oraclesNone 30 {} c2breakScript).err = none ∧
     (parseWithBlockSupport oraclesNone 30 {} c2breakScript).brk = false ∧
     (parseWithBlockSupport oraclesNone 30 {} c2breakScript).cont = false ∧
     lookupVar (parseWithBlockSupport oraclesNone 30 {} c2breakScript).st "i".data =
       some (Value.vnum ⟨3, 1⟩) ∧
     lookupVar (parseWithBlockSupport oraclesNone 30 {} c2breakScript).st "done".data =
       some (Value.vstr "yes".data) ∧
     (parseWithBlockSupport oraclesNone 30 {} c2breakScript).st.ctxBreak = true) :=
  ⟨repeat_break, while_break, foreach_break, repeat_continue, while_continue,
   foreach_continue, while_normal_exit, pifbwc_transparency,
   rfl, rfl, rfl, rfl, rfl, rfl⟩

/-- C3.  With the loop condition still true, a body that executes `continue`
takes the `if loopResult.ShouldContinue { continue }` path of the `while`
driver (`part_009` lines 872-983), which skips the `iterations++` at the
bottom of Go's `for` body: for every fuel budget the model's driver reports
`iters = 0` and one more completed body run per extra unit of fuel, ending
only in the model's fuel-exhaustion marker (wrapped in the per-iteration
error message for iteration 1) - never in the 1000-iteration cap diagnostic.
The claim's cap therefore does not bound such loops: the body runs
unboundedly.  The second conjunct states the same for the whole script run
end to end through `ParseWithBlockSupport`. -/
theorem C3_while_cap_bypassed_by_continue (o : Oracles) (n : Nat) :
    run o (n + 2) (.whileIter c3cond c3body 0) c3stable =
      { st := c3stable, vals := [], err := some c3wrap, iters := 0, runs := n + 1 } ∧
    parseWithBlockSupport o (n + 5) {} c3script =
      { st := c3stable, vals := [Value.vstr "Variable $x set to 0".data],
        err := some c3wrap, iters := 0, runs := n + 2 } :=
  ⟨c3_loop o n, c3_script_run o n⟩

end HttpDsl

namespace HttpDsl

/-- Initial state for the C5 scenario: a previous successful response is
simulated by a nonzero stored status, so any overwrite would be visible. -/
def c5start : DslState := { engine := { lastStatus := 200 } }

/-- C5 counterexample.  With every request failing (`oraclesNone` returns the
I/O error "net down"), the two-line script `c5script` does not continue to its
second statement: `ParseWithBlockSupport` halts with the wrapped error
`error parsing HTTP request: request failed: net down`, the variable `$after`
of the following statement is never set, and the last-response snapshot is not
replaced by any zero-status sentinel - the previous status 200 is still
stored.  This refutes the claim's synthetic-failure-value / zero-sentinel /
execution-continues behaviour. -/
theorem C5_counterexample_io_error_aborts_script :
    (parseWithBlockSupport oraclesNone 9 c5start c5script).err =
      some "error parsing HTTP request: request failed: net down".data ∧
    lookupVar (parseWithBlockSupport oraclesNone 9 c5start c5script).st "after".data
      = none ∧
    (parseWithBlockSupport oraclesNone 9 c5start c5script).st.engine.lastStatus = 200 ∧
    (parseWithBlockSupport oraclesNone 9 c5start c5script).st.engine.hasResponse
      = false :=
  ⟨rfl, rfl, rfl, rfl⟩

/-- C5 (amended).  On an I/O error `HTTPEngine.Request` records the elapsed
time and returns the error `request failed: <err>` with the snapshot otherwise
unchanged (no zero-status sentinel, no synthetic value), and the script run
surfaces it to the caller as `error parsing HTTP request: request failed:
<err>`, aborting at that statement for every initial state, every fuel budget
and every failing transport. -/
theorem C5_amended_io_error_propagates (o : Oracles) (st : DslState) (e : Str) (f : Nat)
    (h : o.doReq "GET".data "http://h/x".data {} = .error e) :
    engineRequest o st.engine "GET".data "http://h/x".data {} =
      ({ st.engine with lastTimeMs := qOfInt 0 },
       .error ("request failed: ".data ++ e)) ∧
    parseWithBlockSupport o (f + 1) st c5script =
      { st := { st with engine := { st.engine with lastTimeMs := qOfInt 0 } },
        err := some ("error parsing HTTP request: request failed: ".data ++ e) } :=
  ⟨by simp +decide [engineRequest, requestTarget, h], c5_general o st e f h⟩

/-- Closed instance of the C5 amended theorem at the concrete failing
transport `oraclesNone`, fuel 9, and the initial state `c5start`. -/
theorem C5_amended_io_error_propagates_witness :
    engineRequest oraclesNone c5start.engine "GET".data "http://h/x".data {} =
      ({ c5start.engine with lastTimeMs := qOfInt 0 },
       .error ("request failed: ".data ++ "net down".data)) ∧
    parseWithBlockSupport oraclesNone (8 + 1) c5start c5script =
      { st := { c5start with engine := { c5start.engine with lastTimeMs := qOfInt 0 } },
        err := some ("error parsing HTTP request: request failed: ".data ++
          "net down".data) } :=
  C5_amended_io_error_propagates oraclesNone c5start "net down".data 8 rfl

/-- C6 counterexample.  An undefined `$name` is left verbatim by
`expandVariables` - it does not expand to the empty string as the claim
says. -/
theorem C6_counterexample_undefined_left_verbatim :
    expandVariables { vars := [] } "Value: $undefined".data = "Value: $undefined".data ∧
    expandVariables { vars := [] } "Value: $undefined".data ≠ "Value: ".data :=
  ⟨rfl, by decide⟩

/-- C6 (amended).  `expandVariables` replaces each stored `$name` occurrence
by the variable's stringification via sequential `ReplaceAll` in store order;
a string in which no stored variable's `$name` occurs - in particular any
`$name` whose variable is undefined - is returned verbatim, and expansion
never raises an error (the function is total). -/
theorem C6_amended_expansion :
    (∀ (st : DslState) (s : Str),
       (∀ p, p ∈ st.vars → containsSub s ("$".data ++ p.1) = false) →
       expandVariables st s = s) ∧
    expandVariables { vars := [("name".data, Value.vstr "world".data)] }
      "hello $name!".data = "hello world!".data ∧
    expandVariables { vars := [] } "Value: $undefined".data = "Value: $undefined".data := by
  refine ⟨?_, rfl, rfl⟩
  intro st s hno
  exact expandVarsList_eq_of_no_occurrence st.vars s hno

/-- C7 counterexample.  `CompareValues` (`part_010` lines 1376-1462) decides
that a side is numeric with `fmt.Sscanf(s, "%f", ...)`, which accepts a
numeric *prefix*: `"10x"` does not parse as a float (`strconv.ParseFloat`
rejects it), yet `CompareValues` compares `"10x" > "9"` numerically (10 > 9)
and returns true, where the claim's rule - lexicographic unless both sides
fully parse - gives false. -/
theorem C7_counterexample_prefix_numeric_parse :
    compareValues (Value.vstr "10x".data) ">".data (Value.vstr "9".data) = true ∧
    specCompareStrs "10x".data ">".data "9".data = false ∧
    parseFloatFull "10x".data = none ∧
    sscanfFloat "10x".data = some (qOfInt 10) :=
  ⟨rfl, rfl, rfl, rfl⟩

/-- C7 (amended).  Both comparators re-decide numericness afresh at each
evaluation from the stringified sides, but by different rules:
`HTTPEngine.Compare` is numeric exactly when both sides fully parse as floats
(`strconv.ParseFloat`) and lexicographic otherwise - the claim's rule - while
the block-path `CompareValues` counts a side as numeric whenever
`fmt.Sscanf "%f"` reads a float from its leading prefix, falling back to
string comparison only when a side has no numeric prefix at all. -/
theorem C7_amended_comparison_characterization :
    (∀ (l : Value) (op : Str) (r : Value),
       engineCompare l op r = specCompareStrs (gofmt l) op (gofmt r)) ∧
    (∀ (l : Value) (op : Str) (r : Value),
       compareValues l op r = specBlockCompare l op r) :=
  ⟨engineCompare_eq_spec, compareValues_eq_specBlock⟩

end HttpDsl

namespace HttpDsl

/-- C4.  When no response body is stored (`GetLastResponse()` returns the
empty string - in particular before any request), both extraction actions,
for every extraction kind and pattern, write the empty string to the target
variable and return the warning string as an `ok` value: they never produce
an error. -/
theorem C4_extract_without_response_warns_and_writes_empty
    (o : Oracles) (st : DslState) (ty pat varName : Str)
    (hresp : st.engine.lastBody = ([] : Str)) :
    extractAction o st ty pat varName =
      (setVar st varName (.vstr []),
       .ok (.vstr ("Warning: No response available for extraction. Variable $".data ++
                   varName ++ " set to empty.".data))) ∧
    extractActionNP o st ty varName =
      (setVar st varName (.vstr []),
       .ok (.vstr ("Warning: No response available for extraction. Variable $".data ++
                   varName ++ " set to empty.".data))) ∧
    lookupVar (extractAction o st ty pat varName).1 varName = some (.vstr []) := by
  have h : (st.engine.lastBody == ([] : Str)) = true := by simp [hresp]
  refine ⟨?_, ?_, ?_⟩ <;> simp [extractAction, extractActionNP, h, lookupVar_setVar]

/-- Closed instance of the C4 theorem: a fresh state (no request yet) and a
jsonpath extraction. -/
theorem C4_extract_without_response_witness :
    extractAction oraclesNone {} "jsonpath".data "$.user".data "v".data =
      (setVar {} "v".data (.vstr []),
       .ok (.vstr ("Warning: No response available for extraction. Variable $".data ++
                   "v".data ++ " set to empty.".data))) ∧
    extractActionNP oraclesNone {} "jsonpath".data "v".data =
      (setVar {} "v".data (.vstr []),
       .ok (.vstr ("Warning: No response available for extraction. Variable $".data ++
                   "v".data ++ " set to empty.".data))) ∧
    lookupVar (extractAction oraclesNone {} "jsonpath".data "$.user".data "v".data).1
      "v".data = some (.vstr []) :=
  C4_extract_without_response_warns_and_writes_empty oraclesNone {} "jsonpath".data
    "$.user".data "v".data rfl

/-- With oracles that never return the model's `vnull` for a non-nil Go
interface (a Go `nil` extraction result is the model's `none`), the engine
dispatch never yields `some Value.vnull`. -/
theorem engineExtract_ne_null (o : Oracles) (es : EngineState) (ty pat : Str)
    (hjp : ∀ p b, o.jsonpathO p b ≠ some Value.vnull)
    (hxp : ∀ p b, o.xpathO p b ≠ some Value.vnull)
    (hre : ∀ p b, o.regexO p b ≠ some Value.vnull) :
    engineExtract o es ty pat ≠ some Value.vnull := by
  unfold engineExtract
  split_ifs <;>
    first
      | exact hjp pat es.lastBody
      | exact hxp pat es.lastBody
      | exact hre pat es.lastBody
      | simp

/-- C10.  With a stored response body, an extraction whose query matches
nothing (the engine dispatch returns Go `nil`, the model's `none`) still
succeeds and stores the empty string; and in every case the value stored in
the target variable is never null (under the modelling hypotheses that the
extraction oracles return `none`, not a null value, for a Go `nil` result). -/
theorem C10_extract_with_response_never_null
    (o : Oracles) (st : DslState) (ty pat varName : Str)
    (hresp : (st.engine.lastBody == ([] : Str)) = false)
    (hjp : ∀ p b, o.jsonpathO p b ≠ some Value.vnull)
    (hxp : ∀ p b, o.xpathO p b ≠ some Value.vnull)
    (hre : ∀ p b, o.regexO p b ≠ some Value.vnull) :
    (engineExtract o st.engine ty pat = none →
       extractAction o st ty pat varName =
         (setVar st varName (.vstr []),
          .ok (.vstr ("Extracted ".data ++ pat ++ " using ".data ++ ty ++
                      " and stored in $".data ++ varName)))) ∧
    ∃ v, lookupVar (extractAction o st ty pat varName).1 varName = some v ∧
         v ≠ Value.vnull := by
  constructor
  · intro hnone
    simp [extractAction, hresp, hnone]
  · cases hE : engineExtract o st.engine ty pat with
    | none =>
      refine ⟨.vstr [], ?_, by simp⟩
      simp [extractAction, hresp, hE, lookupVar_setVar]
    | some v =>
      refine ⟨v, ?_, ?_⟩
      · simp [extractAction, hresp, hE, lookupVar_setVar]
      · intro hv
        exact engineExtract_ne_null o st.engine ty pat hjp hxp hre (hv ▸ hE)

/-- Closed instance of the C10 theorem: a state with a stored body and a
jsonpath query that matches nothing. -/
theorem C10_extract_with_response_witness :
    (engineExtract oraclesNone ({ engine := { lastBody := "x".data } } : DslState).engine
       "jsonpath".data "$.a".data = none →
       extractAction oraclesNone { engine := { lastBody := "x".data } }
         "jsonpath".data "$.a".data "v".data =
         (setVar { engine := { lastBody := "x".data } } "v".data (.vstr []),
          .ok (.vstr ("Extracted ".data ++ "$.a".data ++ " using ".data ++
                      "jsonpath".data ++ " and stored in $".data ++ "v".data)))) ∧
    ∃ v, lookupVar (extractAction oraclesNone { engine := { lastBody := "x".data } }
        "jsonpath".data "$.a".data "v".data).1 "v".data = some v ∧
      v ≠ Value.vnull :=
  C10_extract_with_response_never_null oraclesNone { engine := { lastBody := "x".data } }
    "jsonpath".data "$.a".data "v".data rfl
    (fun _ _ => by simp [oraclesNone]) (fun _ _ => by simp [oraclesNone])
    (fun _ _ => by simp [oraclesNone])

end HttpDsl
